import Mathlib

/-!
Verification development for the receipt/invoice OCR pipeline:
shallow embedding of the TypeScript sources (`src/lib/export.ts`,
`src/lib/ocr.ts`, the `EnterpriseOCREngine` / `OptimizedOCRService`
modules) and proofs about them.

Modelling conventions:
* JS strings are Lean `String` / `List Char`; all array indexing is explicit.
* JS numbers are modelled by `Q` below: exact rationals kept as unreduced
  `Int` fractions, so that every embedded computation reduces by `decide`.
  A value is interpreted in `ℚ` through `Q.toRat`.  Every number appearing
  in the claims is a small decimal, for which exact rational arithmetic and
  IEEE-double arithmetic agree on all operations the code performs
  (comparisons, sums, products, `Math.round(x*100)/100`).
* `parseFloat` / `parseInt` / `Math.round` are modelled explicitly below;
  `NaN` is modelled by `Option` (for parse results) or by a zero
  denominator (inside arithmetic), with JS's "every comparison with NaN is
  false" behaviour.
* External effects (the Tesseract engine, timers, `crypto.randomUUID`,
  `Date` parsing) enter as explicit parameters (oracles) of the embeddings.
-/

/-- A JS number: an exact rational as an unreduced fraction.  All values
built by the embedding keep `0 < den`; a zero denominator only arises from
a division by zero and then behaves like JS `NaN` in comparisons (always
false). -/
structure Q where
  num : ℤ
  den : ℤ
  deriving DecidableEq

namespace Q

def ofInt (n : ℤ) : Q := ⟨n, 1⟩

instance : OfNat Q n := ⟨ofInt n⟩

def add (a b : Q) : Q := ⟨a.num * b.den + b.num * a.den, a.den * b.den⟩

def neg (a : Q) : Q := ⟨-a.num, a.den⟩

def sub (a b : Q) : Q := add a (neg b)

def mul (a b : Q) : Q := ⟨a.num * b.num, a.den * b.den⟩

/-- Division; the sign is kept in the numerator so that denominators stay
nonnegative. -/
def div (a b : Q) : Q :=
  if 0 ≤ b.num then ⟨a.num * b.den, a.den * b.num⟩
  else ⟨-(a.num * b.den), a.den * -b.num⟩

instance : Add Q := ⟨add⟩
instance : Neg Q := ⟨neg⟩
instance : Sub Q := ⟨sub⟩
instance : Mul Q := ⟨mul⟩
instance : Div Q := ⟨div⟩

/-- JS `<`: false when either side is `NaN` (zero denominator). -/
def blt (a b : Q) : Bool :=
  0 < a.den && 0 < b.den && a.num * b.den < b.num * a.den

/-- JS `<=`: false when either side is `NaN`. -/
def ble (a b : Q) : Bool :=
  0 < a.den && 0 < b.den && a.num * b.den ≤ b.num * a.den

/-- JS `===` on numbers: false when either side is `NaN`. -/
def beq (a b : Q) : Bool :=
  0 < a.den && 0 < b.den && a.num * b.den = b.num * a.den

/-- JS truthiness of a number: `0` and `NaN` are falsy. -/
def truthy (a : Q) : Bool := 0 < a.den && a.num ≠ 0

/-- `Math.abs`. -/
def abs (a : Q) : Q := ⟨|a.num|, a.den⟩

/-- `Math.floor`, as an integer. -/
def floorInt (a : Q) : ℤ := Int.fdiv a.num a.den

/-- JS `Math.round`: round half toward positive infinity. -/
def jsRound (a : Q) : ℤ := floorInt (add a ⟨1, 2⟩)

/-- `Math.min` on two numbers (used only on non-`NaN` values). -/
def jsMin (a b : Q) : Q := if ble a b then a else b

/-- `Math.max` on two numbers (used only on non-`NaN` values). -/
def jsMax (a b : Q) : Q := if ble a b then b else a

/-- Interpretation of a `Q` value as a rational number. -/
def toRat (a : Q) : ℚ := (a.num : ℚ) / (a.den : ℚ)

/-- A well-formed (non-`NaN`) JS number. -/
def valid (a : Q) : Prop := 0 < a.den

instance (a : Q) : Decidable a.valid := by
  unfold valid
  infer_instance

theorem toRat_ofInt (n : ℤ) : (ofInt n).toRat = (n : ℚ) := by
  simp [ofInt, toRat]

theorem toRat_ofNat (n : ℕ) : (OfNat.ofNat n : Q).toRat = (n : ℚ) := by
  simp [OfNat.ofNat, toRat_ofInt]

theorem toRat_eq_of_beq {a b : Q} (h : beq a b = true) : a.toRat = b.toRat := by
  rcases a with ⟨an, ad⟩; rcases b with ⟨bn, bd⟩
  simp only [beq, Bool.and_eq_true, decide_eq_true_eq] at h
  obtain ⟨⟨ha, hb⟩, hcross⟩ := h
  have had : (ad : ℚ) ≠ 0 := by exact_mod_cast ha.ne'
  have hbd : (bd : ℚ) ≠ 0 := by exact_mod_cast hb.ne'
  rw [toRat, toRat, div_eq_div_iff had hbd]
  exact_mod_cast hcross

theorem toRat_le_of_ble {a b : Q} (h : ble a b = true) : a.toRat ≤ b.toRat := by
  rcases a with ⟨an, ad⟩; rcases b with ⟨bn, bd⟩
  simp only [ble, Bool.and_eq_true, decide_eq_true_eq] at h
  obtain ⟨⟨ha, hb⟩, hcross⟩ := h
  have had : (0 : ℚ) < (ad : ℚ) := by exact_mod_cast ha
  have hbd : (0 : ℚ) < (bd : ℚ) := by exact_mod_cast hb
  rw [toRat, toRat, div_le_div_iff had hbd]
  exact_mod_cast hcross

theorem toRat_lt_of_blt {a b : Q} (h : blt a b = true) : a.toRat < b.toRat := by
  rcases a with ⟨an, ad⟩; rcases b with ⟨bn, bd⟩
  simp only [blt, Bool.and_eq_true, decide_eq_true_eq] at h
  obtain ⟨⟨ha, hb⟩, hcross⟩ := h
  have had : (0 : ℚ) < (ad : ℚ) := by exact_mod_cast ha
  have hbd : (0 : ℚ) < (bd : ℚ) := by exact_mod_cast hb
  rw [toRat, toRat, div_lt_div_iff had hbd]
  exact_mod_cast hcross

theorem ble_iff_toRat {a b : Q} (ha : a.valid) (hb : b.valid) :
    ble a b = true ↔ a.toRat ≤ b.toRat := by
  constructor
  · exact toRat_le_of_ble
  · intro h
    rcases a with ⟨an, ad⟩; rcases b with ⟨bn, bd⟩
    have had : (0 : ℚ) < (ad : ℚ) := by exact_mod_cast ha
    have hbd : (0 : ℚ) < (bd : ℚ) := by exact_mod_cast hb
    rw [toRat, toRat, div_le_div_iff had hbd] at h
    simp only [ble, Bool.and_eq_true, decide_eq_true_eq]
    exact ⟨⟨ha, hb⟩, by exact_mod_cast h⟩

theorem valid_add {a b : Q} (ha : a.valid) (hb : b.valid) : (a.add b).valid := by
  simpa [add, valid] using mul_pos ha hb

theorem valid_ofInt (n : ℤ) : (ofInt n).valid := by simp [ofInt, valid]

theorem valid_ofNat (n : ℕ) : (OfNat.ofNat n : Q).valid := valid_ofInt n

theorem toRat_add {a b : Q} (ha : a.valid) (hb : b.valid) :
    (a.add b).toRat = a.toRat + b.toRat := by
  rcases a with ⟨an, ad⟩; rcases b with ⟨bn, bd⟩
  have had : (ad : ℚ) ≠ 0 := by exact_mod_cast ha.ne'
  have hbd : (bd : ℚ) ≠ 0 := by exact_mod_cast hb.ne'
  simp only [add, toRat]
  push_cast
  field_simp

theorem toRat_jsMin {a b : Q} (ha : a.valid) (hb : b.valid) :
    (jsMin a b).toRat = min a.toRat b.toRat := by
  by_cases h : ble a b = true
  · simp [jsMin, h, min_eq_left (toRat_le_of_ble h)]
  · have : ¬ a.toRat ≤ b.toRat := fun hc => h ((ble_iff_toRat ha hb).2 hc)
    simp [jsMin, h, min_eq_right (le_of_not_le this)]

theorem toRat_jsMax {a b : Q} (ha : a.valid) (hb : b.valid) :
    (jsMax a b).toRat = max a.toRat b.toRat := by
  by_cases h : ble a b = true
  · simp [jsMax, h, max_eq_right (toRat_le_of_ble h)]
  · have : ¬ a.toRat ≤ b.toRat := fun hc => h ((ble_iff_toRat ha hb).2 hc)
    simp [jsMax, h, max_eq_left (le_of_not_le this)]

theorem valid_jsMin {a b : Q} (ha : a.valid) (hb : b.valid) : (jsMin a b).valid := by
  unfold jsMin; split <;> assumption

theorem valid_jsMax {a b : Q} (ha : a.valid) (hb : b.valid) : (jsMax a b).valid := by
  unfold jsMax; split <;> assumption

end Q

namespace JS

/-- JS whitespace (the `\s` class restricted to the code points that can occur
in this pipeline: ASCII whitespace and NBSP). -/
def isWhite (c : Char) : Bool :=
  c = ' ' || c = '\t' || c = '\n' || c = '\r' ||
  c = Char.ofNat 11 || c = Char.ofNat 12 || c = Char.ofNat 160

def isDigit (c : Char) : Bool := '0' ≤ c && c ≤ '9'

def digitVal (c : Char) : ℕ := c.toNat - '0'.toNat

def digitsToNat (ds : List Char) : ℕ := ds.foldl (fun a c => 10 * a + digitVal c) 0

/-- Split a list of chars at the first position where the digits stop. -/
def takeDigits : List Char → List Char × List Char
  | [] => ([], [])
  | c :: cs =>
    if isDigit c then
      let r := takeDigits cs
      (c :: r.1, r.2)
    else ([], c :: cs)

/-- JS `parseFloat` on a list of characters: skip leading whitespace, optional
sign, decimal mantissa, optional exponent; `none` models `NaN`.
(The `Infinity` literal never occurs in this pipeline's inputs.) -/
def jsParseFloatAux (l : List Char) : Option Q :=
  let l := l.dropWhile isWhite
  let sign : ℤ × List Char :=
    match l with
    | '-' :: r => (-1, r)
    | '+' :: r => (1, r)
    | r => (1, r)
  let p1 := takeDigits sign.2
  let intDs := p1.1
  let p2 : List Char × List Char :=
    match p1.2 with
    | '.' :: r => takeDigits r
    | r => ([], r)
  let fracDs := p2.1
  if intDs = [] ∧ fracDs = [] then none
  else
    let mant : Q :=
      ⟨sign.1 * ((digitsToNat intDs : ℤ) * 10 ^ fracDs.length + (digitsToNat fracDs : ℤ)),
        (10 : ℤ) ^ fracDs.length⟩
    let withExp : Q :=
      match p2.2 with
      | 'e' :: r | 'E' :: r =>
        let se : ℤ × List Char :=
          match r with
          | '-' :: rr => (-1, rr)
          | '+' :: rr => (1, rr)
          | rr => (1, rr)
        let eDs := (takeDigits se.2).1
        if eDs = [] then mant
        else if se.1 = 1 then Q.mul mant ⟨(10 : ℤ) ^ digitsToNat eDs, 1⟩
        else Q.mul mant ⟨1, (10 : ℤ) ^ digitsToNat eDs⟩
      | _ => mant
    some withExp

def jsParseFloat (s : String) : Option Q := jsParseFloatAux s.toList

/-- JS `parseInt` (base 10): skip whitespace, optional sign, then a digit run;
`none` models `NaN`. -/
def jsParseInt (s : String) : Option ℤ :=
  let l := s.toList.dropWhile isWhite
  let sign : ℤ × List Char :=
    match l with
    | '-' :: r => (-1, r)
    | '+' :: r => (1, r)
    | r => (1, r)
  let ds := (takeDigits sign.2).1
  if ds = [] then none else some (sign.1 * (digitsToNat ds : ℤ))

/-- Comparison with a possibly-`NaN` integer: any comparison with `NaN` is
false. -/
def optLE (o : Option ℤ) (n : ℤ) : Bool :=
  match o with
  | some v => v ≤ n
  | none => false

def optLT (o : Option ℤ) (n : ℤ) : Bool :=
  match o with
  | some v => v < n
  | none => false

def optGT (o : Option ℤ) (n : ℤ) : Bool :=
  match o with
  | some v => n < v
  | none => false

/-- Rendering of a possibly-`NaN` number by a JS template literal. -/
def numToStr (o : Option ℤ) : String :=
  match o with
  | some v => toString v
  | none => "NaN"

/-- `padStart(2, "0")` on a string. -/
def padStart2 (s : String) : String :=
  if s.length ≥ 2 then s else "".pushn '0' (2 - s.length) ++ s

/-- Split a char list at every separator char (JS `split` with a one-char
class: empty pieces are preserved). -/
def splitOnPred (p : Char → Bool) : List Char → List (List Char)
  | [] => [[]]
  | c :: cs =>
    let r := splitOnPred p cs
    if p c then [] :: r
    else
      match r with
      | h :: t => (c :: h) :: t
      | [] => [[c]]

/-- JS `String.prototype.replace` with a plain-string pattern: first
occurrence only (here: a single char replaced by a single char). -/
def replaceFirst (a b : Char) : List Char → List Char
  | [] => []
  | c :: cs => if c = a then b :: cs else c :: replaceFirst a b cs

/-- Last index of a char, `-1` when absent (JS `lastIndexOf`). -/
def lastIndexOf (a : Char) (l : List Char) : ℤ :=
  (l.enum.foldl (fun acc p => if p.2 = a then (p.1 : ℤ) else acc) (-1))

/-- JS `String.prototype.trim`. -/
def jsTrim (l : List Char) : List Char :=
  ((l.dropWhile isWhite).reverse.dropWhile isWhite).reverse

def jsTrimS (s : String) : String := ⟨jsTrim s.toList⟩

/-- Substring containment (JS `includes`). -/
def containsSubList (hay needle : List Char) : Bool :=
  match hay with
  | [] => needle = []
  | _ :: t => needle.isPrefixOf hay || containsSubList t needle

def jsIncludes (hay needle : String) : Bool := containsSubList hay.toList needle.toList

def toLowerList (l : List Char) : List Char := l.map Char.toLower

def jsToLower (s : String) : String := ⟨toLowerList s.toList⟩

def jsToUpper (s : String) : String := ⟨s.toList.map Char.toUpper⟩

/-- JS `substring(start, end)` (arguments already clamped by the caller). -/
def jsSubstring (s : String) (a b : ℕ) : String := ⟨(s.toList.take b).drop a⟩

end JS

namespace Regex

/-- One item of a character class. -/
inductive CItem where
  | rng (lo hi : Char)
  | chr (c : Char)
  | digit
  | space
  | word
  deriving DecidableEq

def citemMatch (it : CItem) (c : Char) : Bool :=
  match it with
  | .rng lo hi => lo ≤ c && c ≤ hi
  | .chr a => c = a
  | .digit => JS.isDigit c
  | .space => JS.isWhite c
  | .word => ('a' ≤ c && c ≤ 'z') || ('A' ≤ c && c ≤ 'Z') || JS.isDigit c || c = '_'

/-- Abstract syntax of the JS regular-expression subset used by the sources:
literals, `.`, character classes, concatenation, alternation, quantifiers
(greedy and lazy, via `rep lo hi`), capturing groups, the `^` `$` anchors,
`\b`, and negative lookahead. -/
inductive Re where
  | eps
  | chr (c : Char)
  | any
  | cls (neg : Bool) (items : List CItem)
  | seq (a b : Re)
  | alt (a b : Re)
  | rep (r : Re) (lo : ℕ) (hi : Option ℕ) (lz : Bool)
  | group (idx : ℕ) (r : Re)
  | bos
  | eos
  | wordB
  | negLook (r : Re)
  deriving DecidableEq

def Re.cat : List Re → Re
  | [] => .eps
  | [r] => r
  | r :: rs => .seq r (Re.cat rs)

def Re.alts : List Re → Re
  | [] => .eps
  | [r] => r
  | r :: rs => .alt r (Re.alts rs)

/-- A literal word. -/
def Re.str (w : String) : Re := Re.cat (w.toList.map Re.chr)

def Re.star (r : Re) : Re := .rep r 0 none false

def Re.plusG (r : Re) : Re := .rep r 1 none false

def Re.quest (r : Re) : Re := .rep r 0 (some 1) false

def isWordChar (c : Char) : Bool := citemMatch .word c

/-- Single-char comparison, optionally case-insensitive (ASCII folding). -/
def chMatch (ci : Bool) (a b : Char) : Bool :=
  a = b || (ci && a.toLower = b.toLower)

def clsMatch (ci : Bool) (neg : Bool) (items : List CItem) (c : Char) : Bool :=
  let m := items.any (fun it => citemMatch it c) ||
    (ci && (items.any (fun it => citemMatch it c.toLower) ||
            items.any (fun it => citemMatch it c.toUpper)))
  if neg then !m else m

/-- `.` matches everything except a line terminator. -/
def anyMatch (c : Char) : Bool :=
  ¬(c = '\n' || c = '\r' || c.toNat = 8232 || c.toNat = 8233)

/-- Captured groups: `(index, start, stop)`, most recent first. -/
abbrev Caps := List (ℕ × ℕ × ℕ)

/-- One structural layer of the backtracking matcher: recursion on the
regex; `next` performs the continuation of a quantifier after a completed
iteration (it is instantiated with the matcher at one fuel unit less).
The semantics follows JS (ECMA-262): alternation prefers the left branch,
greedy/lazy quantifiers prefer more/fewer iterations, and a quantifier
iteration that matches the empty string with the minimum already satisfied
fails (the empty-loop check). -/
def mrunStep (ci : Bool) (s : List Char)
    (next : Re → ℕ → Caps → (ℕ → Caps → Option (ℕ × Caps)) → Option (ℕ × Caps)) :
    Re → ℕ → Caps → (ℕ → Caps → Option (ℕ × Caps)) → Option (ℕ × Caps)
  | .eps, i, caps, k => k i caps
  | .chr c, i, caps, k =>
    match s.get? i with
    | some d => if chMatch ci d c then k (i + 1) caps else none
    | none => none
  | .any, i, caps, k =>
    match s.get? i with
    | some d => if anyMatch d then k (i + 1) caps else none
    | none => none
  | .cls neg items, i, caps, k =>
    match s.get? i with
    | some d => if clsMatch ci neg items d then k (i + 1) caps else none
    | none => none
  | .seq a b, i, caps, k =>
    mrunStep ci s next a i caps (fun j c2 => mrunStep ci s next b j c2 k)
  | .alt a b, i, caps, k =>
    match mrunStep ci s next a i caps k with
    | some r => some r
    | none => mrunStep ci s next b i caps k
  | .rep r lo hi lz, i, caps, k =>
    let canStop := lo = 0
    let canGo := hi ≠ some 0
    let go : Unit → Option (ℕ × Caps) := fun _ =>
      mrunStep ci s next r i caps (fun j c2 =>
        if j = i && lo = 0 then none
        else next (.rep r (lo - 1) (hi.map (· - 1)) lz) j c2 k)
    if lz then
      if canStop then
        match k i caps with
        | some res => some res
        | none => if canGo then go () else none
      else if canGo then go () else none
    else
      if canGo then
        match go () with
        | some res => some res
        | none => if canStop then k i caps else none
      else if canStop then k i caps else none
  | .group idx r, i, caps, k =>
    mrunStep ci s next r i caps (fun j c2 => k j ((idx, i, j) :: c2))
  | .bos, i, caps, k => if i = 0 then k i caps else none
  | .eos, i, caps, k => if i = s.length then k i caps else none
  | .wordB, i, caps, k =>
    let before :=
      match i with
      | 0 => false
      | j + 1 =>
        match s.get? j with
        | some c => isWordChar c
        | none => false
    let after :=
      match s.get? i with
      | some c => isWordChar c
      | none => false
    if before ≠ after then k i caps else none
  | .negLook r, i, caps, k =>
    match mrunStep ci s next r i caps (fun j c2 => some (j, c2)) with
    | some _ => none
    | none => k i caps

/-- The matcher: `fuel` only bounds the number of completed quantifier
iterations along one backtracking branch (backtracking restores it), so any
sufficiently large value gives the exact JS semantics; see `fuelFor`. -/
def mrun (ci : Bool) (s : List Char) : ℕ → Re → ℕ → Caps →
    (ℕ → Caps → Option (ℕ × Caps)) → Option (ℕ × Caps)
  | 0, _, _, _, _ => none
  | fuel + 1, re, i, caps, k => mrunStep ci s (mrun ci s fuel) re i caps k

def Re.size : Re → ℕ
  | .seq a b => a.size + b.size + 1
  | .alt a b => a.size + b.size + 1
  | .rep r _ _ _ => r.size + 1
  | .group _ r => r.size + 1
  | .negLook r => r.size + 1
  | _ => 1

/-- Enough fuel for any single match attempt of `re` on `s`: along one
backtracking branch, each completed quantifier iteration either consumes a
character or reduces a pending minimum count (all minimum counts in the
sources are at most 6; 60 is a comfortable bound per nesting level and
position). -/
def fuelFor (s : List Char) (re : Re) : ℕ := (s.length + 2) * (re.size + 2) * 60

/-- Try a match anchored at position `i`. -/
def matchAt (ci : Bool) (s : List Char) (re : Re) (i : ℕ) : Option (ℕ × Caps) :=
  mrun ci s (fuelFor s re) re i [] (fun j c => some (j, c))

/-- Leftmost search: try successive start positions (the JS scan). -/
def searchFromAux (ci : Bool) (s : List Char) (re : Re) : ℕ → ℕ → Option (ℕ × ℕ × Caps)
  | 0, _ => none
  | f + 1, i =>
    match matchAt ci s re i with
    | some (j, caps) => some (i, j, caps)
    | none => if i < s.length then searchFromAux ci s re f (i + 1) else none

def searchFrom (ci : Bool) (s : List Char) (re : Re) (i : ℕ) : Option (ℕ × ℕ × Caps) :=
  searchFromAux ci s re (s.length + 1 - i) i

def sliceStr (s : List Char) (a b : ℕ) : String := ⟨(s.take b).drop a⟩

def capStr (s : List Char) (caps : Caps) (idx : ℕ) : Option String :=
  match caps.find? (fun t => t.1 = idx) with
  | some (_, a, b) => some (sliceStr s a b)
  | none => none

/-- A source regex: syntax plus its flags (`i`, `g`) and its number of
capturing groups. -/
structure Pat where
  re : Re
  ci : Bool
  g : Bool
  groups : ℕ

/-- `RegExp.prototype.test` / the boolean use of `String.prototype.match`. -/
def jsTest (p : Pat) (s : String) : Bool :=
  (searchFrom p.ci s.toList p.re 0).isSome

/-- `String.prototype.match` with a non-global regex: entry 0 is the full
match, entry `n` is capture group `n` (or `none`). -/
def jsMatchNG (p : Pat) (s : String) : Option (List (Option String)) :=
  let l := s.toList
  match searchFrom p.ci l p.re 0 with
  | some (a, b, caps) =>
    some (some (sliceStr l a b) :: (List.range p.groups).map (fun g => capStr l caps (g + 1)))
  | none => none

/-- All successive matches of a global regex, as
`(index, full match, capture groups)`, advancing one position past an empty
match as JS does. -/
def execAllFrom (p : Pat) (l : List Char) (i fuel : ℕ) :
    List (ℕ × String × List (Option String)) :=
  match fuel with
  | 0 => []
  | f + 1 =>
    match searchFrom p.ci l p.re i with
    | some (a, b, caps) =>
      (a, sliceStr l a b, (List.range p.groups).map (fun g => capStr l caps (g + 1))) ::
        execAllFrom p l (if b = a then b + 1 else b) f
    | none => []

def jsExecAll (p : Pat) (s : String) : List (ℕ × String × List (Option String)) :=
  execAllFrom p s.toList 0 (s.toList.length + 1)

/-- `String.prototype.match` with a global regex: `null` (here `none`) or the
nonempty list of full matches. -/
def jsMatchG (p : Pat) (s : String) : Option (List String) :=
  match jsExecAll p s with
  | [] => none
  | ms => some (ms.map (fun m => m.2.1))

/-- `String.prototype.match`, dispatching on the `g` flag as JS does: the
resulting array holds either `[full, group1, ...]` or the list of all full
matches. -/
def jsMatch (p : Pat) (s : String) : Option (List (Option String)) :=
  if p.g then (jsMatchG p s).map (fun l => l.map some)
  else jsMatchNG p s

/-- `match[n]` on the result array of `String.prototype.match`
(`none` models JS `undefined`). -/
def matchIdx (m : Option (List (Option String))) (n : ℕ) : Option String :=
  match m with
  | some l => (l.get? n).join
  | none => none

/-- Reassemble a string from the text between matches and the replacement
of each match. -/
def replaceBuild (l : List Char) (tmpl : String → List (Option String) → String) :
    ℕ → List (ℕ × String × List (Option String)) → String
  | pos, [] => sliceStr l pos l.length
  | pos, (a, full, gs) :: rest =>
    sliceStr l pos a ++ tmpl full gs ++ replaceBuild l tmpl (a + full.length) rest

/-- `String.prototype.replace` with a global regex: every match is replaced
by `tmpl` applied to the full match and the capture groups. -/
def jsReplaceAll (p : Pat) (tmpl : String → List (Option String) → String) (s : String) :
    String :=
  replaceBuild s.toList tmpl 0 (jsExecAll p s)

end Regex

section RegexChecks

open Regex

/-- Digits class `\d`. -/
def rD : Re := .cls false [.digit]

/-- Whitespace class `\s`. -/
def rS : Re := .cls false [.space]

example :
    jsTest ⟨Re.cat [rD, .rep rD 0 (some 1) false, .chr '/', .rep rD 1 (some 2) false,
      .chr '/', rD], false, false, 0⟩ "x 25/12/2024" = true := by decide

example :
    jsMatchNG ⟨Re.cat [.group 1 (.rep rD 1 (some 2) false), .cls false [.chr '/', .chr '-', .chr '.']],
        false, false, 1⟩ "on 25/12" = some [some "25/", some "25"] := by decide

example :
    jsReplaceAll ⟨Re.cat [.group 1 rD, .rep rS 0 none false, .cls false [.chr ',', .chr '.'],
        .rep rS 0 none false, .group 2 (Re.cat [rD, rD]), .negLook rD], false, true, 2⟩
      (fun _ gs => ((gs.get? 0).join.getD "") ++ "." ++ ((gs.get? 1).join.getD ""))
      "a 1 , 50 b 2.345" = "a 1.50 b 2.345" := by decide

end RegexChecks

open Regex

/-- `\d`. -/
def dig : Re := .cls false [.digit]

/-- `\d{m,n}`. -/
def digR (m n : ℕ) : Re := .rep dig m (some n) false

/-- `\d+`. -/
def digP : Re := .rep dig 1 none false

/-- `\s*`. -/
def ws0 : Re := .rep (.cls false [.space]) 0 none false

/-- `\s+`. -/
def ws1 : Re := .rep (.cls false [.space]) 1 none false

/-- `:?`. -/
def optColon : Re := .rep (.chr ':') 0 (some 1) false

/-- `x?` for a single construct. -/
def optR (r : Re) : Re := .rep r 0 (some 1) false

/-- `[\/\-\.]`. -/
def dateSep : Re := .cls false [.chr '/', .chr '-', .chr '.']

/-- `[A-Za-z0-9\-\.]`. -/
def alnumDashDot : Re :=
  .cls false [.rng 'A' 'Z', .rng 'a' 'z', .rng '0' '9', .chr '-', .chr '.']

/-- `\d{1,2}[\/\-\.]\d{1,2}[\/\-\.]\d{2,4}` (the date token). -/
def dateCore : Re := Re.cat [digR 1 2, dateSep, digR 1 2, dateSep, digR 2 4]

/-- `.*?`. -/
def lazyAny : Re := .rep .any 0 none true


section Levenshtein

open Levenshtein (defaultCost)

theorem levenshtein_nil_left (ys : List Char) :
    levenshtein defaultCost ([] : List Char) ys = ys.length := by
  induction ys with
  | nil => simp
  | cons y ys ih => simp [ih, Nat.add_comm]

theorem levenshtein_nil_right (xs : List Char) :
    levenshtein defaultCost xs ([] : List Char) = xs.length := by
  induction xs with
  | nil => simp
  | cons x xs ih => simp [ih, Nat.add_comm]

theorem levenshtein_self (l : List Char) : levenshtein defaultCost l l = 0 := by
  induction l with
  | nil => simp
  | cons x xs ih => simp [ih]

theorem levenshtein_comm (xs ys : List Char) :
    levenshtein defaultCost xs ys = levenshtein defaultCost ys xs := by
  induction xs generalizing ys with
  | nil => simp [levenshtein_nil_left, levenshtein_nil_right]
  | cons x xs ihx =>
    induction ys with
    | nil => simp [levenshtein_nil_left, levenshtein_nil_right]
    | cons y ys ihy =>
      have hsub : (defaultCost.substitute x y : ℕ) = defaultCost.substitute y x := by
        simp only [Levenshtein.defaultCost_substitute, eq_comm]
      rw [levenshtein_cons_cons, levenshtein_cons_cons, ihx (y :: ys), ← ihy, ihx ys, hsub]
      simp only [Levenshtein.defaultCost_delete, Levenshtein.defaultCost_insert]
      exact min_left_comm _ _ _

theorem levenshtein_le_max (xs ys : List Char) :
    levenshtein defaultCost xs ys ≤ max xs.length ys.length := by
  induction xs generalizing ys with
  | nil => simp [levenshtein_nil_left]
  | cons x xs ih =>
    cases ys with
    | nil => simp [levenshtein_nil_right, Nat.add_comm]
    | cons y ys =>
      rw [levenshtein_cons_cons]
      refine le_trans (le_trans (min_le_right _ _) (min_le_right _ _)) ?_
      have hs : (defaultCost.substitute x y : ℕ) ≤ 1 := by
        simp only [Levenshtein.defaultCost_substitute]
        split <;> omega
      refine le_trans (Nat.add_le_add hs (ih ys)) ?_
      simp only [List.length_cons]
      omega

end Levenshtein

namespace JS

/-- JS truthiness of an optional string: `undefined` and `""` are falsy. -/
def optStrTruthy (o : Option String) : Bool :=
  !(o.getD "" == "")

/-- JS truthiness of an optional number: `undefined`, `0` and `NaN` are
falsy. -/
def optQTruthy (o : Option Q) : Bool :=
  match o with
  | some q => Q.truthy q
  | none => false

/-- `String.prototype.split("\n")`. -/
def jsSplitNl (s : String) : List String :=
  (splitOnPred (· = '\n') s.toList).map (fun l => ⟨l⟩)

end JS

/-- `InvoiceItem` (ocr-engine module). -/
structure InvoiceItem where
  description : String
  quantity : Option Q
  unitPrice : Option Q
  amount : Option Q
  deriving DecidableEq

/-- `ExtractedInvoiceData` (ocr-engine module): the structured invoice
record.  Optional fields are `Option`; `processingTime` values are
irrelevant to every claim and are modelled as `0`. -/
structure ExtractedInvoiceData where
  id : String
  invoiceNumber : Option String := none
  date : Option String := none
  time : Option String := none
  dueDate : Option String := none
  vendor : Option String := none
  vendorAddress : Option String := none
  vendorPhone : Option String := none
  vendorEmail : Option String := none
  billTo : Option String := none
  billToAddress : Option String := none
  subtotal : Option Q := none
  tax : Option Q := none
  total : Option Q := none
  currency : Option String := none
  transactionId : Option String := none
  authorizationCode : Option String := none
  terminalId : Option String := none
  merchantId : Option String := none
  cardNumber : Option String := none
  paymentMethod : Option String := none
  extraField1 : Option String := none
  extraField2 : Option String := none
  extraField3 : Option String := none
  extraField4 : Option String := none
  extraField5 : Option String := none
  items : Option (List InvoiceItem) := none
  rawText : Option String := none
  processingMethod : Option String := none
  confidence : Option Q := none
  processingTime : Q := 0
  deriving DecidableEq

namespace IntelligentParser

open JS

/-- `IntelligentParser`'s `ParsingConfig` (export.ts 676-704): only the
fuzzy-match threshold of `0.7` is ever read. -/
structure ParsingConfig where
  fuzzyMatchThreshold : Q
  contextRadius : ℕ
  currencyPriority : List String
  languageSupport : List String

def config : ParsingConfig :=
  ⟨⟨7, 10⟩, 3, ["USD", "$", "EUR", "€", "GBP", "£"], ["en", "nl", "de", "fr", "es"]⟩

/-- `IntelligentParser.calculateSimilarity` (export.ts 972-995).  The JS code
fills the full dynamic-programming matrix of the unit-cost Levenshtein
recurrence (deletion 1, insertion 1, substitution 0/1) and reads the last
cell; `levenshtein` with `Levenshtein.defaultCost` computes exactly that
recurrence.  The similarity is `(maxLength - distance) / maxLength`, and `1`
when both strings are empty. -/
def calculateSimilarity (str1 str2 : String) : Q :=
  let len1 := str1.length
  let len2 := str2.length
  let distance := levenshtein Levenshtein.defaultCost str1.toList str2.toList
  let maxLength := max len1 len2
  if maxLength = 0 then Q.ofInt 1
  else Q.div (Q.ofInt ((maxLength : ℤ) - (distance : ℤ))) (Q.ofInt maxLength)

/-- `IntelligentParser.fuzzyMatch` (export.ts 967-970): similarity at least
the configured threshold `0.7`. -/
def fuzzyMatch (text pat : String) : Bool :=
  Q.ble config.fuzzyMatchThreshold (calculateSimilarity text pat)

/-- `IntelligentParser.parseAmount` (src/lib/export.ts, lines 1353-1377).
The first `replace(/[\$€£,\s]/g, "")` removes every comma, so the two
European-format branches that follow can never fire; they are transcribed
anyway. -/
def parseAmount (amountStr : String) : Q :=
  if amountStr = "" then 0
  else
    let cleaned := amountStr.toList.filter
      (fun c => ¬(c = '$' || c = '€' || c = '£' || c = ',' || isWhite c))
    let cleaned :=
      if cleaned.contains ',' && ¬cleaned.contains '.' then
        replaceFirst ',' '.' cleaned
      else if cleaned.contains ',' && cleaned.contains '.' then
        let lastComma := lastIndexOf ',' cleaned
        let lastDot := lastIndexOf '.' cleaned
        if lastDot < lastComma then
          replaceFirst ',' '.' (cleaned.filter (· ≠ '.'))
        else
          cleaned.filter (· ≠ ',')
      else cleaned
    match jsParseFloatAux cleaned with
    | none => 0
    | some n => Q.div (Q.ofInt (Q.jsRound (Q.mul n 100))) 100

/-- `IntelligentParser.normalizeDate` (src/lib/export.ts, lines 1292-1325). -/
def normalizeDate (dateStr : String) : String :=
  let cleanDate := dateStr.toList.filter (fun c => isDigit c || c = '/' || c = '-' || c = '.')
  let parts := splitOnPred (fun c => c = '/' || c = '-' || c = '.') cleanDate
  if h : parts.length = 3 then
    let p1 := jsParseInt ⟨parts[0]⟩
    let p2 := jsParseInt ⟨parts[1]⟩
    let p3 := jsParseInt ⟨parts[2]⟩
    if optGT p3 1900 then
      if optLE p1 12 && optLE p2 31 then
        padStart2 (numToStr p1) ++ "/" ++ padStart2 (numToStr p2) ++ "/" ++ numToStr p3
      else if optLE p2 12 && optLE p1 31 then
        padStart2 (numToStr p2) ++ "/" ++ padStart2 (numToStr p1) ++ "/" ++ numToStr p3
      else dateStr
    else
      let month := if optLE p1 12 then p1 else p2
      let day := if optLE p1 12 then p2 else p1
      let year := p3.map (fun v => v + (if optLT p3 50 then 2000 else 1900))
      padStart2 (numToStr month) ++ "/" ++ padStart2 (numToStr day) ++ "/" ++ numToStr year
  else dateStr

/-- The `invoiceNumberPatterns` array (export.ts 783-787). -/
def invoiceNumberPatterns : List Pat :=
  [⟨Re.cat [Re.alts [Re.str "invoice", Re.str "inv", Re.str "bill", Re.str "receipt",
      Re.str "ticket"],
      .rep (.cls false [.space, .chr '#']) 0 none false,
      optR (Re.alts [Re.cat [Re.str "no", optR (.chr '.')], Re.str "number",
        Re.cat [Re.str "num", optR (.chr '.')]]),
      ws0, optColon, ws0, .group 1 (.rep alnumDashDot 1 none false)], true, false, 1⟩,
   ⟨Re.cat [Re.alts [Re.cat [Re.str "no", optR (.chr '.')], .chr '#',
      Re.cat [Re.str "num", optR (.chr '.')]],
      ws0, .group 1 (.rep alnumDashDot 3 none false)], true, false, 1⟩,
   ⟨Re.cat [.bos, .group 1 (.rep alnumDashDot 4 none false), ws0, .eos], false, false, 1⟩]

/-- The `datePatterns` array (export.ts 790-794); the middle one carries the
`g` flag, so its match array holds full matches only. -/
def datePatterns : List Pat :=
  [⟨Re.cat [Re.alts [Re.str "date", Re.str "datum", Re.str "fecha"], ws0, optColon, ws0,
      .group 1 dateCore], true, false, 1⟩,
   ⟨.group 1 dateCore, false, true, 1⟩,
   ⟨Re.cat [Re.alts [Re.str "issued", Re.str "printed", Re.str "created"], lazyAny,
      .group 1 dateCore], true, false, 1⟩]

/-- The `timePatterns` array (export.ts 797-800); the first one carries the
`g` flag. -/
def timePatterns : List Pat :=
  [⟨.group 1 (Re.cat [digR 1 2, .chr ':', digR 2 2, optR (Re.cat [.chr ':', digR 2 2]),
      ws0, optR (Re.alts [Re.str "AM", Re.str "PM", Re.str "am", Re.str "pm"])]),
      false, true, 1⟩,
   ⟨Re.cat [Re.alts [Re.str "time", Re.str "tijd", Re.str "hora"], ws0, optColon, ws0,
      .group 1 (Re.cat [digR 1 2, .chr ':', digR 2 2])], true, false, 1⟩]

/-- `/\s+/g` with replacement `" "`. -/
def wsRunPat : Pat := ⟨ws1, false, true, 0⟩

/-- `IntelligentParser.normalizeTime` (export.ts 1327-1351). -/
def normalizeTime (timeStr : String) : String :=
  let cleaned := jsTrimS (jsReplaceAll wsRunPat (fun _ _ => " ") timeStr)
  let m := jsMatchNG ⟨Re.cat [.group 1 (digR 1 2), .chr ':', .group 2 (digR 2 2),
    optR (Re.cat [.chr ':', .group 3 (digR 2 2)]), ws0,
    optR (.group 4 (Re.alts [Re.str "AM", Re.str "PM", Re.str "am", Re.str "pm"]))],
    false, false, 4⟩ cleaned
  match m with
  | none => cleaned
  | some arr =>
    let hour := jsParseInt (((arr.get? 1).join).getD "")
    let minute := ((arr.get? 2).join).getD ""
    let ampm := ((arr.get? 4).join).map jsToUpper
    match ampm with
    | some a => numToStr hour ++ ":" ++ minute ++ " " ++ a
    | none =>
      if optGT hour 12 then numToStr (hour.map (· - 12)) ++ ":" ++ minute ++ " PM"
      else if hour = some 0 then "12:" ++ minute ++ " AM"
      else
        numToStr hour ++ ":" ++ minute ++ " " ++
          (if optGT hour 11 then "PM" else "AM")

/-- `IntelligentParser.preprocessLines` (export.ts 763-777): whitespace
collapse, pipe/backslash removal, quote and apostrophe normalisation, the
decimal-separator fix `(\d)\s*[,.]\s*(\d{2})(?!\d)` → `$1.$2`, and the
spaced-dollar fix, then dropping empty lines. -/
def preprocessLines (lines : List String) : List String :=
  (lines.map (fun line =>
    let c1 := jsTrimS (jsReplaceAll wsRunPat (fun _ _ => " ") line)
    let c2 := jsReplaceAll ⟨.cls false [.chr '|', .chr '\\'], false, true, 0⟩
      (fun _ _ => " ") c1
    let c3 := jsReplaceAll ⟨.cls false [.chr (Char.ofNat 8220), .chr (Char.ofNat 8221)],
      false, true, 0⟩ (fun _ _ => "\"") c2
    let c4 := jsReplaceAll ⟨.cls false [.chr (Char.ofNat 8216), .chr (Char.ofNat 8217)],
      false, true, 0⟩ (fun _ _ => String.singleton (Char.ofNat 39)) c3
    let c5 := jsReplaceAll ⟨Re.cat [.group 1 dig, ws0, .cls false [.chr ',', .chr '.'],
      ws0, .group 2 (digR 2 2), .negLook dig], false, true, 2⟩
      (fun _ gs => (((gs.get? 0).join).getD "") ++ "." ++ (((gs.get? 1).join).getD "")) c4
    let c6 := jsReplaceAll ⟨Re.cat [.chr '$', ws1], false, true, 0⟩ (fun _ _ => "$") c5
    c6)).filter (fun l => l.length > 0)

/-- `IntelligentParser.extractBasicFields` (export.ts 779-840): one pass over
the lines; for each still-unset field the corresponding pattern list is
tried in order. -/
def extractBasicFields (d : ExtractedInvoiceData) (lines : List String) :
    ExtractedInvoiceData :=
  lines.foldl (fun d line =>
    let d :=
      if !optStrTruthy d.invoiceNumber then
        match invoiceNumberPatterns.findSome? (fun p =>
          match matchIdx (jsMatch p line) 1 with
          | some v => if ¬(v = "") ∧ v.length ≥ 3 then some v else none
          | none => none) with
        | some v => { d with invoiceNumber := some (jsTrimS v) }
        | none => d
      else d
    let d :=
      if !optStrTruthy d.date then
        match datePatterns.findSome? (fun p =>
          match matchIdx (jsMatch p line) 1 with
          | some v => if ¬(v = "") then some v else none
          | none => none) with
        | some v => { d with date := some (normalizeDate v) }
        | none => d
      else d
    let d :=
      if !optStrTruthy d.time then
        match timePatterns.findSome? (fun p =>
          match matchIdx (jsMatch p line) 1 with
          | some v => if ¬(v = "") then some v else none
          | none => none) with
        | some v => { d with time := some (normalizeTime v) }
        | none => d
      else d
    d) d

/-- The two `vendorPatterns` of `extractVendorWithContext` (export.ts
882-885). -/
def vendorPatterns : List Pat :=
  [⟨Re.cat [Re.alts [Re.str "vendor", Re.str "supplier", Re.str "from", Re.str "merchant",
      Re.str "store", Re.str "shop", Re.str "business"], ws0, optColon, ws0,
      .group 1 (.rep .any 1 none false)], true, false, 1⟩,
   ⟨Re.cat [Re.alts [Re.str "naam", Re.str "name"], ws0, optColon, ws0,
      .group 1 (.rep .any 1 none false)], true, false, 1⟩]

/-- `/^(invoice|bill|receipt|tax|date|datum|check|server|item|total|subtotal|\d+)/i`. -/
def vendorSkipPat : Pat :=
  ⟨Re.cat [.bos, .group 1 (Re.alts [Re.str "invoice", Re.str "bill", Re.str "receipt",
    Re.str "tax", Re.str "date", Re.str "datum", Re.str "check", Re.str "server",
    Re.str "item", Re.str "total", Re.str "subtotal", digP])], true, false, 1⟩

/-- `IntelligentParser.extractVendorWithContext` (export.ts 880-912). -/
def extractVendorWithContext (lines : List String) : Option String :=
  match lines.findSome? (fun line =>
    vendorPatterns.findSome? (fun p =>
      match matchIdx (jsMatch p line) 1 with
      | some v => if ¬(v = "") ∧ v.length > 2 then some (jsTrimS v) else none
      | none => none)) with
  | some v => some v
  | none =>
    (lines.take 5).findSome? (fun line =>
      if !jsTest vendorSkipPat line ∧ line.length > 3 ∧ line.length < 50 then
        if jsTest ⟨Re.cat [.bos, .cls false [.rng 'A' 'Z', .rng 'a' 'z']], false, false, 0⟩ line ∧
            ¬jsTest ⟨Re.cat [.bos, digP, .cls false [.space]], false, false, 0⟩ line then
          some line
        else none
      else none)

/-- `IntelligentParser.extractAddressWithContext` (export.ts 914-936). -/
def extractAddressWithContext (lines : List String) : Option String :=
  let streetPat : Pat := ⟨Re.cat [digP, .rep .any 0 none false,
    Re.alts [Re.str "street", Re.str "st", Re.str "ave", Re.str "avenue", Re.str "road",
      Re.str "rd", Re.str "blvd", Re.str "lane", Re.str "ln", Re.str "way",
      Re.str "drive", Re.str "dr"]], true, false, 0⟩
  let postalPat : Pat := ⟨Re.alts [digR 5 5,
    Re.cat [.rep (.cls false [.rng 'A' 'Z']) 2 (some 2) false, ws1, digR 5 5],
    Re.cat [digR 4 4, ws0, .rep (.cls false [.rng 'A' 'Z']) 2 (some 2) false]],
    true, false, 0⟩
  match (lines.zip lines.tail).findSome? (fun pr =>
    if jsTest streetPat pr.1 then
      if jsTest postalPat pr.2 then some (pr.1 ++ ", " ++ pr.2) else none
    else none) with
  | some v => some v
  | none =>
    let singlePat : Pat := ⟨Re.alts [
      Re.cat [.rep .any 0 none false, digR 4 5, .rep .any 0 none false,
        .rep (.cls false [.rng 'A' 'Z']) 2 none false],
      Re.cat [.rep .any 0 none false, .rep (.cls false [.rng 'A' 'Z']) 2 none false,
        .rep .any 0 none false, digR 4 5]], false, false, 0⟩
    lines.findSome? (fun line =>
      if jsTest singlePat line ∧ line.length > 10 then some line else none)

/-- `/(\(?\d{3}\)?[\s\-\.]?\d{3}[\s\-\.]?\d{4})/` (export.ts 863). -/
def phonePat : Pat :=
  ⟨.group 1 (Re.cat [optR (.chr '('), digR 3 3, optR (.chr ')'),
    optR (.cls false [.space, .chr '-', .chr '.']), digR 3 3,
    optR (.cls false [.space, .chr '-', .chr '.']), digR 4 4]), false, false, 1⟩

/-- `/([a-zA-Z0-9._%+-]+@[a-zA-Z0-9.-]+\.[a-zA-Z]{2,})/` (export.ts 872). -/
def emailPat : Pat :=
  ⟨.group 1 (Re.cat [
    .rep (.cls false [.rng 'a' 'z', .rng 'A' 'Z', .rng '0' '9', .chr '.', .chr '_',
      .chr '%', .chr '+', .chr '-']) 1 none false,
    .chr '@',
    .rep (.cls false [.rng 'a' 'z', .rng 'A' 'Z', .rng '0' '9', .chr '.', .chr '-'])
      1 none false,
    .chr '.',
    .rep (.cls false [.rng 'a' 'z', .rng 'A' 'Z']) 2 none false]), false, false, 1⟩

/-- `IntelligentParser.extractContextualFields` (export.ts 842-878). -/
def extractContextualFields (d : ExtractedInvoiceData) (lines : List String)
    (rawText : String) : ExtractedInvoiceData :=
  let d :=
    if !optStrTruthy d.vendor then { d with vendor := extractVendorWithContext lines }
    else d
  let d :=
    if !optStrTruthy d.vendorAddress then
      { d with vendorAddress := extractAddressWithContext lines }
    else d
  let d :=
    if !optStrTruthy d.vendorPhone then
      match matchIdx (jsMatch phonePat rawText) 1 with
      | some v =>
        { d with vendorPhone := some (jsTrimS (jsReplaceAll wsRunPat (fun _ _ => " ") v)) }
      | none => d
    else d
  let d :=
    if !optStrTruthy d.vendorEmail then
      match matchIdx (jsMatch emailPat rawText) 1 with
      | some v => { d with vendorEmail := some v }
      | none => d
    else d
  d

/-- The OCR-corruption keyword table of `extractWithFuzzyMatching`
(export.ts 941-948), in object-key order. -/
def fuzzyPatterns : List (String × List String) :=
  [("total", ["total", "totaal", "tota1", "t0tal", "tatol", "iotal", "fotal"]),
   ("subtotal", ["subtotal", "sub total", "subtotaal", "sub-total", "sublotal"]),
   ("tax", ["tax", "btw", "vat", "sales tax", "tax:", "tox", "iax"]),
   ("amount", ["amount", "bedrag", "am0unt", "amouht", "am0unt"]),
   ("invoice", ["invoice", "factuur", "inv0ice", "invoic3", "1nvoice"])]

/-- `/\$?(\d+[,.]?\d*)/g` (export.ts 999). -/
def numberScanPat : Pat :=
  ⟨Re.cat [optR (.chr '$'), .group 1 (Re.cat [digP,
    optR (.cls false [.chr ',', .chr '.']), .rep dig 0 none false])], false, true, 1⟩

/-- `IntelligentParser.processFuzzyMatchedLine` (export.ts 997-1022): take
the last number on the line; `total` is replaced whenever the new amount is
larger, `subtotal` and `tax` only when still unset. -/
def processFuzzyMatchedLine (d : ExtractedInvoiceData) (line : String)
    (fieldType : String) : ExtractedInvoiceData :=
  match jsMatch numberScanPat line with
  | none => d
  | some numberMatch =>
    let amount := parseAmount (((numberMatch.getLast?).join).getD "")
    if Q.blt 0 amount then
      if fieldType == "total" then
        if !optQTruthy d.total || Q.blt (d.total.getD ⟨0, 0⟩) amount then
          { d with total := some amount }
        else d
      else if fieldType == "subtotal" then
        if !optQTruthy d.subtotal then { d with subtotal := some amount } else d
      else if fieldType == "tax" then
        if !optQTruthy d.tax then { d with tax := some amount } else d
      else d
    else d

/-- `IntelligentParser.extractWithFuzzyMatching` (export.ts 938-965): a line
is processed for a field as soon as some keyword variation fuzzy-matches the
whole lowercased line. -/
def extractWithFuzzyMatching (d : ExtractedInvoiceData) (lines : List String) :
    ExtractedInvoiceData :=
  lines.foldl (fun d line =>
    let lowerLine := jsToLower line
    fuzzyPatterns.foldl (fun d fp =>
      if fp.2.any (fun v => fuzzyMatch lowerLine v) then
        processFuzzyMatchedLine d line fp.1
      else d) d) d

/-- `ParsedAmount` (export.ts 683-688); the computed confidences are always
integers. -/
structure ParsedAmount where
  value : Q
  currency : Option String
  confidence : ℤ
  source : String
  deriving DecidableEq

/-- The `amountPatterns` array of `extractAmountsAdvanced` (export.ts
1031-1041). -/
def amountPatterns : List Pat :=
  [⟨Re.cat [.chr '$', .group 1 (Re.cat [digR 1 6,
      .rep (Re.cat [.chr ',', digR 3 3]) 0 none false, optR (.chr '.'), digR 0 2]),
      .wordB], false, true, 1⟩,
   ⟨Re.cat [.group 1 (Re.cat [digR 1 6, .rep (Re.cat [.chr ',', digR 3 3]) 0 none false,
      .chr '.', digR 2 2]), ws0, Re.alts [.chr '$', Re.str "USD", Re.str "usd"]],
      true, true, 1⟩,
   ⟨Re.cat [.chr '€', .group 1 (Re.cat [digR 1 6,
      .rep (Re.cat [.chr '.', digR 3 3]) 0 none false, .chr ',', digR 2 2]),
      .wordB], false, true, 1⟩,
   ⟨Re.cat [.group 1 (Re.cat [digR 1 6, .rep (Re.cat [.chr '.', digR 3 3]) 0 none false,
      .chr ',', digR 2 2]), ws0, Re.alts [.chr '€', Re.str "EUR", Re.str "eur"]],
      true, true, 1⟩,
   ⟨Re.cat [.wordB, .group 1 (Re.cat [digR 1 4, .chr '.', digR 2 2]), .wordB],
      false, true, 1⟩,
   ⟨Re.cat [.wordB, .group 1 (Re.cat [digR 1 3, .chr ',', digR 2 2]), .wordB],
      false, true, 1⟩]

/-- `IntelligentParser.detectCurrency` (export.ts 1162-1172). -/
def detectCurrency (amountStr : String) : Option String :=
  if jsIncludes amountStr "$" then some "USD"
  else if jsIncludes amountStr "€" then some "EUR"
  else if jsIncludes amountStr "£" then some "GBP"
  else if jsTest ⟨Re.cat [digP, .chr ',', digR 2 2], false, false, 0⟩ amountStr then
    some "EUR"
  else if jsTest ⟨Re.cat [digP, .chr '.', digR 2 2], false, false, 0⟩ amountStr then
    some "USD"
  else none

/-- `IntelligentParser.calculateAmountConfidence` (export.ts 1135-1160). -/
def calculateAmountConfidence (amountStr fullText : String) (position : ℕ) : ℤ :=
  let contextStart := position - 50
  let contextEnd := min fullText.length (position + 50)
  let context := jsToLower (jsSubstring fullText contextStart contextEnd)
  let confidence : ℤ := 50
  let confidence := confidence + (if jsTest ⟨Re.str "total", false, false, 0⟩ context then 25 else 0)
  let confidence := confidence + (if jsTest ⟨Re.str "subtotal", false, false, 0⟩ context then 20 else 0)
  let confidence := confidence +
    (if jsTest ⟨Re.alts [Re.str "tax", Re.str "vat", Re.str "btw"], false, false, 0⟩ context then 20 else 0)
  let confidence := confidence + (if jsTest ⟨Re.str "amount", false, false, 0⟩ context then 15 else 0)
  let confidence := confidence + (if jsTest ⟨Re.str "due", false, false, 0⟩ context then 15 else 0)
  let confidence := confidence +
    (if jsTest ⟨Re.cat [.bos, .chr '$', digP, .chr '.', digR 2 2, .eos], false, false, 0⟩
      amountStr then 20 else 0)
  let confidence := confidence +
    (if jsTest ⟨Re.cat [.bos, digP, .chr '.', digR 2 2, .eos], false, false, 0⟩
      amountStr then 10 else 0)
  let value := parseAmount amountStr
  let confidence := confidence -
    (if Q.blt value ⟨1, 100⟩ || Q.blt ⟨5000, 1⟩ value then 20 else 0)
  let confidence := confidence - (if jsIncludes amountStr "000" then 10 else 0)
  max 0 (min 100 confidence)

/-- All candidate amounts collected by the `exec` loops of
`extractAmountsAdvanced` (export.ts 1043-1058), in pattern order then match
order. -/
def extractAllAmounts (rawText : String) : List ParsedAmount :=
  amountPatterns.flatMap (fun p =>
    (jsExecAll p rawText).filterMap (fun m =>
      let g1 := (m.2.2.get? 0).join
      let amountStr := if optStrTruthy g1 then g1.getD "" else m.2.1
      let value := parseAmount amountStr
      if Q.blt 0 value && Q.blt value 10000 then
        some ⟨value, detectCurrency m.2.1, calculateAmountConfidence m.2.1 rawText m.1,
          m.2.1⟩
      else none))

/-- The JS `reduce((best, curr) => curr.confidence > best.confidence ? curr : best)`
(first maximum wins ties); only called on nonempty lists. -/
def bestByConfidence (l : List ParsedAmount) : ParsedAmount :=
  match l with
  | [] => ⟨⟨0, 0⟩, none, 0, ""⟩
  | a :: rest =>
    rest.foldl (fun best curr => if best.confidence < curr.confidence then curr else best) a

/-- `/total.*:|total\s*$/`. -/
def ctxTotalPat : Pat :=
  ⟨Re.alts [Re.cat [Re.str "total", .rep .any 0 none false, .chr ':'],
    Re.cat [Re.str "total", ws0, .eos]], false, false, 0⟩

/-- `/subtotal|sub.total/`. -/
def ctxSubtotalPat : Pat :=
  ⟨Re.alts [Re.str "subtotal", Re.cat [Re.str "sub", .any, Re.str "total"]],
    false, false, 0⟩

/-- `/tax|btw|vat/`. -/
def ctxTaxPat : Pat :=
  ⟨Re.alts [Re.str "tax", Re.str "btw", Re.str "vat"], false, false, 0⟩

/-- `IntelligentParser.assignAmountsWithContext` (export.ts 1070-1109). -/
def assignAmountsWithContext (d : ExtractedInvoiceData) (amounts : List ParsedAmount)
    (lines : List String) : ExtractedInvoiceData :=
  (List.range lines.length).foldl (fun d i =>
    let line := jsToLower (lines.getD i "")
    let nextLine := if i < lines.length - 1 then lines.getD (i + 1) "" else ""
    let lineText := jsToLower (lines.getD i "" ++ " " ++ nextLine)
    let lineAmounts := amounts.filter (fun a => jsIncludes lineText (jsToLower a.source))
    if lineAmounts.length = 0 then d
    else if jsTest ctxTotalPat line && !optQTruthy d.total then
      let bestAmount := bestByConfidence lineAmounts
      { d with total := some bestAmount.value, currency := bestAmount.currency }
    else if jsTest ctxSubtotalPat line && !optQTruthy d.subtotal then
      let bestAmount := bestByConfidence lineAmounts
      { d with subtotal := some bestAmount.value }
    else if jsTest ctxTaxPat line && !optQTruthy d.tax then
      let bestAmount := bestByConfidence lineAmounts
      { d with tax := some bestAmount.value }
    else d) d

/-- `IntelligentParser.finalizeAmountAssignment` (export.ts 1111-1133). -/
def finalizeAmountAssignment (d : ExtractedInvoiceData) (amounts : List ParsedAmount) :
    ExtractedInvoiceData :=
  let d :=
    if !optQTruthy d.total && amounts.length > 0 then
      let bestAmount := bestByConfidence amounts
      if bestAmount.confidence > 50 then
        { d with total := some bestAmount.value, currency := bestAmount.currency }
      else d
    else d
  let d :=
    if !optStrTruthy d.currency && amounts.length > 0 then
      let currencies := (amounts.map (fun a => a.currency)).filter (fun c => optStrTruthy c)
      match currencies.head? with
      | some c => { d with currency := c }
      | none => d
    else d
  d

/-- `IntelligentParser.extractAmountsAdvanced` (export.ts 1024-1068). -/
def extractAmountsAdvanced (d : ExtractedInvoiceData) (lines : List String)
    (rawText : String) : ExtractedInvoiceData :=
  let allAmounts := extractAllAmounts rawText
  let d := assignAmountsWithContext d allAmounts lines
  finalizeAmountAssignment d allAmounts

/-- `/^(.{3,50}?)\s+.*?\$?(\d+\.?\d{0,2})\s*$/` (export.ts 1183). -/
def itemPat : Pat :=
  ⟨Re.cat [.bos, .group 1 (.rep .any 3 (some 50) true), ws1, lazyAny, optR (.chr '$'),
    .group 2 (Re.cat [digP, optR (.chr '.'), digR 0 2]), ws0, .eos], false, false, 2⟩

/-- `/(total|subtotal|tax|amount)/i` (export.ts 1192). -/
def itemSkipPat : Pat :=
  ⟨.group 1 (Re.alts [Re.str "total", Re.str "subtotal", Re.str "tax", Re.str "amount"]),
    true, false, 1⟩

/-- `IntelligentParser.extractLineItems` (export.ts 1174-1208). -/
def extractLineItems (lines : List String) : List InvoiceItem :=
  lines.filterMap (fun line =>
    let m := jsMatch itemPat line
    if optStrTruthy (matchIdx m 1) && optStrTruthy (matchIdx m 2) then
      let description := jsTrimS ((matchIdx m 1).getD "")
      let amount := parseAmount ((matchIdx m 2).getD "")
      if Q.blt 0 amount && Q.blt amount 200 && !jsTest itemSkipPat description &&
          description.length > 5 then
        some ⟨description, some 1, some amount, some amount⟩
      else none
    else none)

/-- `/(?:transaction|trans|ref).*?:?\s*([A-Z0-9]{6,})/i`. -/
def transactionIdPat : Pat :=
  ⟨Re.cat [Re.alts [Re.str "transaction", Re.str "trans", Re.str "ref"], lazyAny,
    optColon, ws0, .group 1 (.rep (.cls false [.rng 'A' 'Z', .rng '0' '9']) 6 none false)],
    true, false, 1⟩

/-- `/(?:auth|approval).*?:?\s*([A-Z0-9]{4,})/i`. -/
def authCodePat : Pat :=
  ⟨Re.cat [Re.alts [Re.str "auth", Re.str "approval"], lazyAny,
    optColon, ws0, .group 1 (.rep (.cls false [.rng 'A' 'Z', .rng '0' '9']) 4 none false)],
    true, false, 1⟩

/-- `/(?:card|kaart).*?([x*\d]{4,})/i`. -/
def cardNumberPat : Pat :=
  ⟨Re.cat [Re.alts [Re.str "card", Re.str "kaart"], lazyAny,
    .group 1 (.rep (.cls false [.chr 'x', .chr '*', .digit]) 4 none false)],
    true, false, 1⟩

/-- `/(?:card type|payment|method).*?:?\s*([A-Z]+)/i`. -/
def paymentMethodPat : Pat :=
  ⟨Re.cat [Re.alts [Re.str "card type", Re.str "payment", Re.str "method"], lazyAny,
    optColon, ws0, .group 1 (.rep (.cls false [.rng 'A' 'Z']) 1 none false)],
    true, false, 1⟩

/-- `match[1].trim()` of a pattern on a line when the match and its first
group are truthy. -/
def matchTrim1 (p : Pat) (line : String) : Option String :=
  let v := matchIdx (jsMatch p line) 1
  if optStrTruthy v then some (jsTrimS (v.getD "")) else none

/-- The skip pattern of `extractExtraFields` (export.ts 1240). -/
def extraSkipPat : Pat :=
  ⟨Re.cat [.bos, .group 1 (Re.alts [Re.str "total", Re.str "subtotal", Re.str "tax",
    Re.str "date", Re.str "time", Re.str "amount", Re.str "vendor", Re.str "invoice",
    Re.str "receipt", Re.str "check", Re.str "server", Re.str "item",
    Re.str "description", Re.str "price",
    Re.cat [digP, ws0, .eos], Re.cat [.bos, ws0, .eos]])], true, false, 1⟩

/-- `IntelligentParser.extractExtraFields` (export.ts 1237-1257). -/
def extractExtraFields (d : ExtractedInvoiceData) (lines : List String) :
    ExtractedInvoiceData :=
  let extraData := lines.foldl (fun acc line =>
    if !jsTest extraSkipPat line && line.length > 3 && line.length < 100 &&
        !acc.contains line then acc ++ [line]
    else acc) ([] : List String)
  let d := if extraData.length > 0 then { d with extraField1 := extraData.get? 0 } else d
  let d := if extraData.length > 1 then { d with extraField2 := extraData.get? 1 } else d
  let d := if extraData.length > 2 then { d with extraField3 := extraData.get? 2 } else d
  let d := if extraData.length > 3 then { d with extraField4 := extraData.get? 3 } else d
  let d := if extraData.length > 4 then { d with extraField5 := extraData.get? 4 } else d
  d

/-- `IntelligentParser.extractBusinessData` (export.ts 1210-1235); the four
transaction patterns are tried per line in object-key order (the `rawText`
argument is never read by the source body). -/
def extractBusinessData (d : ExtractedInvoiceData) (lines : List String)
    (_rawText : String) : ExtractedInvoiceData :=
  let d := lines.foldl (fun d line =>
    let d :=
      if !optStrTruthy d.transactionId then
        match matchTrim1 transactionIdPat line with
        | some v => { d with transactionId := some v }
        | none => d
      else d
    let d :=
      if !optStrTruthy d.authorizationCode then
        match matchTrim1 authCodePat line with
        | some v => { d with authorizationCode := some v }
        | none => d
      else d
    let d :=
      if !optStrTruthy d.cardNumber then
        match matchTrim1 cardNumberPat line with
        | some v => { d with cardNumber := some v }
        | none => d
      else d
    let d :=
      if !optStrTruthy d.paymentMethod then
        match matchTrim1 paymentMethodPat line with
        | some v => { d with paymentMethod := some v }
        | none => d
      else d
    d) d
  extractExtraFields d lines

/-- `/[^\w\s\-\.'&]/g` (export.ts 1274). -/
def vendorStripPat : Pat :=
  ⟨.cls true [.word, .space, .chr '-', .chr '.', .chr (Char.ofNat 39), .chr '&'],
    false, true, 0⟩

/-- `IntelligentParser.validateAndCleanData` (export.ts 1259-1285): the
total-vs-subtotal-plus-tax comparison only logs and changes no field;
vendor is stripped of non-name characters and dropped when shorter than 2;
a date rejected by `new Date` (the `jsdv` oracle) is dropped. -/
def validateAndCleanData (jsdv : String → Bool) (d : ExtractedInvoiceData) :
    ExtractedInvoiceData :=
  let d :=
    if optStrTruthy d.vendor then
      let v := jsTrimS (jsReplaceAll vendorStripPat (fun _ _ => "") (d.vendor.getD ""))
      if v.length < 2 then { d with vendor := none } else { d with vendor := some v }
    else d
  let d :=
    if optStrTruthy d.date && !jsdv (d.date.getD "") then { d with date := none }
    else d
  d

/-- `IntelligentParser.parseInvoiceData` (export.ts 706-761): the fixed
strategy pipeline.  `jsdv` models `new Date` validity, `uuid` models
`crypto.randomUUID()`; wall-clock durations are modelled as `0`.  The JS
`try`/`catch` around the strategies is dead in this embedding because every
strategy is total. -/
def parseInvoiceData (jsdv : String → Bool) (uuid : String) (rawText _fileName : String)
    (processingMethod : Option String) (confidence : Option Q) : ExtractedInvoiceData :=
  let lines := ((jsSplitNl rawText).map jsTrimS).filter (fun l => !(l == ""))
  let cleanedLines := preprocessLines lines
  let d : ExtractedInvoiceData :=
    { id := uuid, rawText := some rawText, processingMethod := processingMethod,
      confidence := confidence, processingTime := 0 }
  let d := extractBasicFields d cleanedLines
  let d := extractContextualFields d cleanedLines rawText
  let d := extractWithFuzzyMatching d cleanedLines
  let d := extractAmountsAdvanced d cleanedLines rawText
  let d := { d with items := some (extractLineItems cleanedLines) }
  let d := extractBusinessData d cleanedLines rawText
  let d := validateAndCleanData jsdv d
  d

end IntelligentParser

namespace OCRService

open JS

/-- Test of `/,\d{2}$/`: the string ends with a comma followed by exactly two
digits. -/
def endsCommaTwoDigits (l : List Char) : Bool :=
  match l.reverse with
  | d2 :: d1 :: c :: _ => isDigit d2 && isDigit d1 && c = ','
  | _ => false

/-- `OCRService.parseAmount` (src/lib/ocr.ts, lines 556-576). -/
def parseAmount (amountStr : String) : Q :=
  let cleaned := amountStr.toList.filter (fun c => isDigit c || c = '.' || c = ',')
  let number : Option Q :=
    if cleaned.contains ',' && cleaned.contains '.' then
      let parts := splitOnPred (· = ',') cleaned
      let integerPart := (parts.headD []).filter (· ≠ '.')
      let decimalPart :=
        match parts.get? 1 with
        | some d => if d = [] then ['0'] else d
        | none => ['0']
      jsParseFloatAux (integerPart ++ '.' :: decimalPart)
    else if cleaned.contains ',' && endsCommaTwoDigits cleaned then
      jsParseFloatAux (replaceFirst ',' '.' cleaned)
    else
      jsParseFloatAux (cleaned.filter (· ≠ ','))
  match number with
  | none => 0
  | some n => n

/-- `OCRService.normalizeDate` (src/lib/ocr.ts, lines 533-554); the three
parts stay strings here, only `part1` is ever parsed. -/
def normalizeDate (dateStr : String) : String :=
  let cleanDate := dateStr.toList.filter (fun c => isDigit c || c = '/' || c = '-' || c = '.')
  let parts := splitOnPred (fun c => c = '/' || c = '-' || c = '.') cleanDate
  if h : parts.length = 3 then
    let p1 : String := ⟨parts[0]⟩
    let p2 : String := ⟨parts[1]⟩
    let p3 : String := ⟨parts[2]⟩
    if p3.length = 4 then
      let month := if optLE (jsParseInt p1) 12 then p1 else p2
      let day := if optLE (jsParseInt p1) 12 then p2 else p1
      padStart2 month ++ "/" ++ padStart2 day ++ "/" ++ p3
    else if p1.length = 4 then
      padStart2 p2 ++ "/" ++ padStart2 p3 ++ "/" ++ p1
    else dateStr
  else dateStr

end OCRService

namespace OptimizedOCRService

open JS

/-- `OptimizedOCRService.parseAmount` (OptimizedOCRService module, lines
1155-1167).  As in `IntelligentParser.parseAmount`, the leading
`replace(/[\$€£,\s]/g, "")` deletes every comma before the European-format
branch can see one. -/
def parseAmount (amountStr : String) : Q :=
  if amountStr = "" then 0
  else
    let cleaned := amountStr.toList.filter
      (fun c => ¬(c = '$' || c = '€' || c = '£' || c = ',' || isWhite c))
    let cleaned :=
      if cleaned.contains ',' && ¬cleaned.contains '.' then
        replaceFirst ',' '.' cleaned
      else cleaned
    match jsParseFloatAux cleaned with
    | none => 0
    | some n => Q.div (Q.ofInt (Q.jsRound (Q.mul n 100))) 100

end OptimizedOCRService

example : Q.beq (IntelligentParser.parseAmount "1.234,56") ⟨123, 100⟩ = true := by decide
example : Q.beq (IntelligentParser.parseAmount "$64.00") 64 = true := by decide
example : Q.beq (IntelligentParser.parseAmount "64,00") 6400 = true := by decide
example : Q.beq (OCRService.parseAmount "1.234,56") ⟨123456, 100⟩ = true := by decide
example : Q.beq (OCRService.parseAmount "$64.00") 64 = true := by decide
example : Q.beq (OCRService.parseAmount "64,00") 64 = true := by decide
example : Q.beq (OptimizedOCRService.parseAmount "1.234,56") ⟨123, 100⟩ = true := by decide
example : Q.beq (OptimizedOCRService.parseAmount "64,00") 6400 = true := by decide
example : IntelligentParser.normalizeDate "25/12/2024" = "12/25/2024" := by decide
example : IntelligentParser.normalizeDate "2024-12-25" = "12/2024/2025" := by decide
example : OCRService.normalizeDate "25/12/2024" = "12/25/2024" := by decide
example : OCRService.normalizeDate "2024-12-25" = "12/25/2024" := by decide

example : levenshtein Levenshtein.defaultCost "t0tal 55.00".toList "t0tal".toList = 6 := by decide
example : Q.beq (IntelligentParser.calculateSimilarity "t0tal 55.00" "t0tal") ⟨5, 11⟩ = true := by decide
example : IntelligentParser.fuzzyMatch "t0tal 55.00" "t0tal" = false := by decide
example : IntelligentParser.fuzzyMatch "total 5" "total" = true := by decide

namespace EnterpriseOCREngine

open JS Regex

/-- `OCRResult` (EnterpriseOCREngine module, 91-96); the orchestrator stores
the computed quality score in `confidence`. -/
structure OCRResult where
  text : String
  confidence : Q
  method : String
  processingTime : Q
  deriving DecidableEq

/-- The receipt keyword list of `calculateQualityScore` (line 577). -/
def receiptWords : List String :=
  ["total", "subtotal", "tax", "amount", "receipt", "invoice", "date", "time"]

/-- `/\$\d+\.?\d{0,2}|\d+\.\d{2}/` (line 571): a monetary-value-shaped
token. -/
def moneyPat : Pat :=
  ⟨Re.alts [Re.cat [.chr '$', digP, optR (.chr '.'), digR 0 2],
    Re.cat [digP, .chr '.', digR 2 2]], false, false, 0⟩

/-- One character outside the allow list `[a-zA-Z0-9\s.,\$:()\-]` (line
594); the global match count of that negated single-character class is
exactly the count of such characters. -/
def specialChar (c : Char) : Bool :=
  clsMatch false true [.rng 'a' 'z', .rng 'A' 'Z', .rng '0' '9', .space, .chr '.',
    .chr ',', .chr '$', .chr ':', .chr '(', .chr ')', .chr '-'] c

/-- `specialCharRatio` (line 594): special characters over text length; an
empty text gives `0/0`, the JS `NaN`, whose comparisons are all false. -/
def specialRatio (text : String) : Q :=
  Q.div (Q.ofInt ((text.toList.filter specialChar).length : ℤ))
    (Q.ofInt (text.length : ℤ))

/-- `EnterpriseOCREngine.calculateQualityScore` (lines 567-602).  Note that
the special-character penalty applies only when the ratio exceeds `0.1`,
and that an empty text gives `0/0` (JS `NaN`), whose comparison with `0.1`
is false. -/
def calculateQualityScore (text : String) (confidence : Q) : Q :=
  let score := if Q.truthy confidence then confidence else 0
  let score := if jsTest moneyPat text then Q.add score 15 else score
  let foundWords :=
    (receiptWords.filter (fun w => jsIncludes (jsToLower text) (jsToLower w))).length
  let score := if foundWords > 0 then Q.add score (Q.ofInt (foundWords * 3)) else score
  let score := if text.length > 50 ∧ text.length < 5000 then Q.add score 5 else score
  let specialCharRatio := specialRatio text
  let score :=
    if Q.blt ⟨1, 10⟩ specialCharRatio then
      Q.sub score (Q.ofInt (Q.jsRound (Q.mul specialCharRatio 20)))
    else score
  Q.jsMax 0 (Q.jsMin 100 score)

/-- An image variant, reduced to its name: the pixel contents only matter
through the recognition oracle. -/
structure ImageVariant where
  name : String
  deriving DecidableEq

/-- An OCR configuration, reduced to its name. -/
structure OCRConfig where
  name : String
  deriving DecidableEq

/-- `EnterpriseOCREngine.performMultiEngineOCR` (lines 496-565): nested
loops over variants × configurations.  `recognize v c` is the engine
oracle for variant index `v` and config index `c`: `none` models a thrown
exception (caught, logged and skipped by the source); `some (text, conf,
elapsed)` a successful recognition.  A successful attempt replaces the
best result only when its quality score is strictly higher.  The initial
best result is the empty text with confidence `0`, and the fold returns it
unchanged when no attempt beats it: the function has no error path. -/
def performMultiEngineOCR (variants : List ImageVariant) (configs : List OCRConfig)
    (recognize : ℕ → ℕ → Option (String × Q × Q)) : OCRResult :=
  let init : OCRResult := { text := "", confidence := 0, method := "", processingTime := 0 }
  (List.range variants.length).foldl (fun best vIdx =>
    (List.range configs.length).foldl (fun best cIdx =>
      match recognize vIdx cIdx with
      | none => best
      | some (text, engineConf, elapsed) =>
        let confidence := if Q.truthy engineConf then engineConf else 0
        let qualityScore := calculateQualityScore text confidence
        let result : OCRResult :=
          { text := text, confidence := qualityScore,
            method := (variants.getD vIdx ⟨""⟩).name ++ "+" ++ (configs.getD cIdx ⟨""⟩).name,
            processingTime := elapsed }
        if Q.blt best.confidence qualityScore then result else best) best) init

end EnterpriseOCREngine

namespace EnterpriseOCRService

open JS

/-- `ProcessingOptions` (export.ts 291-297): caller-supplied options,
`none` for an omitted field. -/
structure ProcessingOptions where
  enableAdvancedPreprocessing : Option Bool := none
  maxRetries : Option ℕ := none
  timeoutMs : Option ℕ := none
  enableFuzzyMatching : Option Bool := none
  enableContextualParsing : Option Bool := none

/-- `ProcessingResult.performance` (export.ts 303-308); wall-clock
durations are modelled as `0`. -/
structure Performance where
  totalTime : Q
  ocrTime : Q
  parsingTime : Q
  attemptsUsed : ℕ
  deriving DecidableEq

/-- `ProcessingResult` (export.ts 299-309). -/
structure ProcessingResult where
  data : ExtractedInvoiceData
  success : Bool
  error : Option String := none
  performance : Performance
  deriving DecidableEq

/-- One document-processing environment: all the controller's collaborators
as oracles.  `initError` is `some message` when engine initialisation
throws; `attempts k` is the outcome of the OCR step of attempt `k`
(`Except.error` covers engine exceptions and the timeout rejection);
`jsdv` and `uuid` model `new Date` validity and `crypto.randomUUID`. -/
structure Env where
  initError : Option String
  fileSize : ℕ
  fileType : String
  fileName : String
  attempts : ℕ → Except String String
  jsdv : String → Bool
  uuid : String

/-- The `allowedTypes` list of `validateFile` (export.ts 493-496). -/
def allowedTypes : List String :=
  ["image/jpeg", "image/jpg", "image/png", "image/gif", "image/bmp",
   "image/tiff", "image/webp", "application/pdf"]

/-- `EnterpriseOCRService.validateFile` (export.ts 486-508). -/
def validateFile (env : Env) : Option String :=
  if env.fileSize > 50 * 1024 * 1024 then some "File size exceeds 50MB limit"
  else if !allowedTypes.contains env.fileType then
    some ("Unsupported file type: " ++ env.fileType ++ ". Supported types: " ++
      String.intercalate ", " allowedTypes)
  else if env.fileName = "" ∨ (jsTrimS env.fileName).length = 0 then
    some "Invalid file name"
  else none

/-- `EnterpriseOCRService.assessDataQuality` (export.ts 532-566). -/
def assessDataQuality (data : ExtractedInvoiceData) : Q :=
  let score : Q := 0
  let maxScore : Q := 0
  let (score, maxScore) :=
    if optQTruthy data.total then (Q.add score 25, Q.add maxScore 25)
    else (score, maxScore)
  let (score, maxScore) :=
    if optStrTruthy data.vendor then (Q.add score 20, Q.add maxScore 20)
    else (score, maxScore)
  let (score, maxScore) :=
    if optStrTruthy data.date then (Q.add score 15, Q.add maxScore 15)
    else (score, maxScore)
  let (score, maxScore) :=
    if optQTruthy data.subtotal then (Q.add score 10, Q.add maxScore 10)
    else (score, maxScore)
  let (score, maxScore) :=
    if optQTruthy data.tax then (Q.add score 10, Q.add maxScore 10)
    else (score, maxScore)
  let maxScore := Q.add maxScore 50
  let (score, maxScore) :=
    if optStrTruthy data.rawText ∧ (data.rawText.getD "").length > 100 then
      (Q.add score 10, Q.add maxScore 10)
    else (score, maxScore)
  let (score, maxScore) :=
    if optStrTruthy data.invoiceNumber then (Q.add score 5, Q.add maxScore 5)
    else (score, maxScore)
  let (score, maxScore) :=
    if optStrTruthy data.time then (Q.add score 5, Q.add maxScore 5)
    else (score, maxScore)
  let (score, maxScore) :=
    if optQTruthy data.total ∧ optQTruthy data.subtotal ∧ optQTruthy data.tax then
      let calculatedTotal := Q.add (data.subtotal.getD ⟨0, 0⟩) (data.tax.getD ⟨0, 0⟩)
      let difference :=
        Q.div (Q.abs (Q.sub (data.total.getD ⟨0, 0⟩) calculatedTotal)) (data.total.getD ⟨0, 0⟩)
      (if Q.blt difference ⟨5, 100⟩ then Q.add score 10 else score, Q.add maxScore 10)
    else (score, maxScore)
  let score :=
    if optQTruthy data.confidence ∧ Q.blt 70 (data.confidence.getD ⟨0, 0⟩) then
      Q.add score (Q.jsMin 15 (Q.mul (Q.sub (data.confidence.getD ⟨0, 0⟩) 70) ⟨1, 2⟩))
    else score
  let maxScore := Q.add maxScore 15
  if Q.blt 0 maxScore then Q.mul (Q.div score maxScore) 100 else 0

/-- `EnterpriseOCRService.isResultAcceptable` (export.ts 568-579). -/
def isResultAcceptable (data : ExtractedInvoiceData) (qualityScore : Q)
    (isLastAttempt : Bool) : Bool :=
  let minQualityScore : Q := if isLastAttempt then 30 else 60
  let hasEssentialData := optQTruthy data.total || optStrTruthy data.vendor
  let hasSubstantialText := optStrTruthy data.rawText && (data.rawText.getD "").length > 50
  Q.ble minQualityScore qualityScore && hasEssentialData && hasSubstantialText

/-- `Number.prototype.toFixed(1)` on an exact nonnegative value; only used
to render scores inside log and error strings. -/
def qToFixed1 (q : Q) : String :=
  let n := Q.jsRound (Q.mul q 10)
  toString (Int.ediv n 10) ++ "." ++ toString (Int.emod n 10)

/-- `EnterpriseOCRService.createErrorResult` (export.ts 581-606): an empty
record (`rawText` is the empty string), `success := false`, the message
(with the underlying error appended), and the partial performance data
(each component defaulting to `0` / attempts `0`).  `perf` carries
`(ocrTime, parsingTime, attemptsUsed)` when the caller passes one. -/
def createErrorResult (uuid message : String) (error : Option String)
    (perf : Option (Q × Q × ℕ)) : ProcessingResult :=
  { data := { id := uuid, rawText := some "", processingTime := 0 },
    success := false,
    error := some (message ++ (match error with | some e => ": " ++ e | none => "")),
    performance :=
      { totalTime := 0,
        ocrTime := (perf.map (fun p => p.1)).getD 0,
        parsingTime := (perf.map (fun p => p.2.1)).getD 0,
        attemptsUsed := (perf.map (fun p => p.2.2)).getD 0 } }

/-- The retry loop of `processDocument` (export.ts 381-484).  `attempt` is
the current index, `fuel` the number of remaining iterations
(`processDocument` supplies `maxRetries + 1`, so the `fuel = 0` case is
never reached).  An `attempts` error, or OCR text shorter than 10 chars
after trimming (the `throw` at line 399), is the `catch` path: retry, or
on the final attempt the exhausted error result.  Otherwise the text is
parsed, assessed, and either accepted, returned as a low-quality failure
on the final attempt, or retried. -/
def procLoop (env : Env) (maxRetries : ℕ) : ℕ → ℕ → ProcessingResult
  | attempt, 0 =>
    createErrorResult env.uuid
      ("Processing failed after " ++ toString attempt ++ " attempts") none
      (some (0, 0, attempt))
  | attempt, fuel + 1 =>
    let attemptsUsed := attempt + 1
    match env.attempts attempt with
    | Except.error e =>
      if attempt = maxRetries then
        createErrorResult env.uuid
          ("Processing failed after " ++ toString attemptsUsed ++ " attempts") (some e)
          (some (0, 0, attemptsUsed))
      else procLoop env maxRetries (attempt + 1) fuel
    | Except.ok rawText =>
      if rawText == "" || (jsTrimS rawText).length < 10 then
        if attempt = maxRetries then
          createErrorResult env.uuid
            ("Processing failed after " ++ toString attemptsUsed ++ " attempts")
            (some "OCR extracted insufficient text") (some (0, 0, attemptsUsed))
        else procLoop env maxRetries (attempt + 1) fuel
      else
        let invoiceData := IntelligentParser.parseInvoiceData env.jsdv env.uuid rawText
          env.fileName (some "enterprise-multi-engine") (some 0)
        let qualityScore := assessDataQuality invoiceData
        if isResultAcceptable invoiceData qualityScore (attempt = maxRetries) then
          { data := invoiceData, success := true, error := none,
            performance :=
              { totalTime := 0, ocrTime := 0, parsingTime := 0,
                attemptsUsed := attemptsUsed } }
        else if attempt = maxRetries then
          { data := invoiceData, success := false,
            error := some ("Low quality result (" ++ qToFixed1 qualityScore ++
              "/100) after " ++ toString attemptsUsed ++ " attempts"),
            performance :=
              { totalTime := 0, ocrTime := 0, parsingTime := 0,
                attemptsUsed := attemptsUsed } }
        else procLoop env maxRetries (attempt + 1) fuel

/-- `EnterpriseOCRService.processDocument` (export.ts 342-484).  The
defaults of the option spread give `maxRetries = 2` when not supplied; the
engine's `getProcessingStats().averageConfidence` is the constant `0`
(nothing in the engine ever updates it), so the parser always receives
confidence `0`. -/
def processDocument (env : Env) (options : ProcessingOptions) : ProcessingResult :=
  let maxRetries := options.maxRetries.getD 2
  match env.initError with
  | some e => createErrorResult env.uuid "Initialization failed" (some e) none
  | none =>
    match validateFile env with
    | some validationError => createErrorResult env.uuid validationError none none
    | none => procLoop env maxRetries 0 (maxRetries + 1)

/-- The invoice record the controller builds from the OCR text of one
attempt (export.ts 407-409). -/
def attemptParse (env : Env) (t : String) : ExtractedInvoiceData :=
  IntelligentParser.parseInvoiceData env.jsdv env.uuid t env.fileName
    (some "enterprise-multi-engine") (some 0)

/-- Whether OCR attempt `j` of an environment is accepted by the
controller (export.ts 394-431): the OCR step must succeed, yield at least
10 characters after trimming, and the parsed record must pass
`isResultAcceptable` under the given last-attempt flag. -/
def attemptAccepted (env : Env) (j : ℕ) (isLast : Bool) : Bool :=
  match env.attempts j with
  | Except.error _ => false
  | Except.ok rawText =>
    if rawText == "" || (jsTrimS rawText).length < 10 then false
    else
      let invoiceData := attemptParse env rawText
      isResultAcceptable invoiceData (assessDataQuality invoiceData) isLast

/-- The low-quality final result of the retry loop (export.ts 455-464):
the parsed record of the final attempt with `success := false` and a
populated error message. -/
def lowQualityResult (env : Env) (m : ℕ) (t : String) : ProcessingResult :=
  let invoiceData := attemptParse env t
  { data := invoiceData, success := false,
    error := some ("Low quality result (" ++ qToFixed1 (assessDataQuality invoiceData) ++
      "/100) after " ++ toString (m + 1) ++ " attempts"),
    performance :=
      { totalTime := 0, ocrTime := 0, parsingTime := 0, attemptsUsed := m + 1 } }

end EnterpriseOCRService

theorem Q.toRat_eq_div {a : Q} (n d : ℤ) (h : Q.beq a ⟨n, d⟩ = true) :
    a.toRat = (n : ℚ) / (d : ℚ) :=
  Q.toRat_eq_of_beq h

/-- C1, counterexample: the claim's reference value
`parseAmount("1.234,56") = 1234.56` fails for `IntelligentParser.parseAmount`:
its first `replace` strips every comma, so it yields `1.23`; likewise
`parseAmount("64,00")` yields `6400`, not `64.00`. -/
theorem C1_parse_amount_counterexample :
    (IntelligentParser.parseAmount "1.234,56").toRat = 123 / 100 ∧
    (IntelligentParser.parseAmount "1.234,56").toRat ≠ 123456 / 100 ∧
    (IntelligentParser.parseAmount "64,00").toRat = 6400 ∧
    (IntelligentParser.parseAmount "64,00").toRat ≠ 64 := by
  rw [Q.toRat_eq_div 123 100 (by decide), Q.toRat_eq_div 6400 1 (by decide)]
  norm_num

/-- C1, amended: parsing is deterministic (the functions are pure), and the
spec's reference values hold exactly for `OCRService.parseAmount`
(`"1.234,56"` → `1234.56`, `"$64.00"` → `64`, `"64,00"` → `64`).
`IntelligentParser.parseAmount` and `OptimizedOCRService.parseAmount` agree
on `"$64.00"` → `64` but, because their leading character strip removes
commas before the European-format branch runs, map `"1.234,56"` to `1.23`
and `"64,00"` to `6400`.  Re-parsing the decimal rendering of each result
reproduces the same value. -/
theorem C1_parse_amount_amended :
    (OCRService.parseAmount "1.234,56").toRat = 123456 / 100 ∧
    (OCRService.parseAmount "$64.00").toRat = 64 ∧
    (OCRService.parseAmount "64,00").toRat = 64 ∧
    (OCRService.parseAmount "1234.56").toRat = 123456 / 100 ∧
    (OCRService.parseAmount "64").toRat = 64 ∧
    (IntelligentParser.parseAmount "$64.00").toRat = 64 ∧
    (IntelligentParser.parseAmount "1.234,56").toRat = 123 / 100 ∧
    (IntelligentParser.parseAmount "64,00").toRat = 6400 ∧
    (IntelligentParser.parseAmount "1.23").toRat = 123 / 100 ∧
    (IntelligentParser.parseAmount "6400").toRat = 6400 ∧
    (IntelligentParser.parseAmount "64").toRat = 64 ∧
    (OptimizedOCRService.parseAmount "$64.00").toRat = 64 ∧
    (OptimizedOCRService.parseAmount "1.234,56").toRat = 123 / 100 ∧
    (OptimizedOCRService.parseAmount "64,00").toRat = 6400 := by
  rw [Q.toRat_eq_div 123456 100 (by decide), Q.toRat_eq_div 64 1 (by decide),
    Q.toRat_eq_div 64 1 (by decide), Q.toRat_eq_div 123456 100 (by decide),
    Q.toRat_eq_div 64 1 (by decide), Q.toRat_eq_div 64 1 (by decide),
    Q.toRat_eq_div 123 100 (by decide), Q.toRat_eq_div 6400 1 (by decide),
    Q.toRat_eq_div 123 100 (by decide), Q.toRat_eq_div 6400 1 (by decide),
    Q.toRat_eq_div 64 1 (by decide), Q.toRat_eq_div 64 1 (by decide),
    Q.toRat_eq_div 123 100 (by decide), Q.toRat_eq_div 6400 1 (by decide)]
  norm_num

/-- C5, counterexample: `IntelligentParser.normalizeDate` has no branch for
a 4-digit first segment, so `"2024-12-25"` falls into the two-digit-year
branch and becomes `"12/2024/2025"`, not `"12/25/2024"`. -/
theorem C5_normalize_date_counterexample :
    IntelligentParser.normalizeDate "2024-12-25" = "12/2024/2025" ∧
    IntelligentParser.normalizeDate "2024-12-25" ≠ "12/25/2024" := by decide

/-- C5, amended: both `normalizeDate`s map `"25/12/2024"` (day > 12) to
`"12/25/2024"`; `OCRService.normalizeDate`, which does have a
4-digit-first-segment branch, maps `"2024-12-25"` to `"12/25/2024"`, while
`IntelligentParser.normalizeDate` maps it to `"12/2024/2025"`. -/
theorem C5_normalize_date_amended :
    IntelligentParser.normalizeDate "25/12/2024" = "12/25/2024" ∧
    OCRService.normalizeDate "25/12/2024" = "12/25/2024" ∧
    OCRService.normalizeDate "2024-12-25" = "12/25/2024" ∧
    IntelligentParser.normalizeDate "2024-12-25" = "12/2024/2025" := by decide

/-- C4: on the line `"T0TAL 55.00"` the fuzzy-matching strategy compares the
whole lowercased line against each keyword variation, so the best
similarity is `5/11 ≈ 0.45 < 0.7` (against the variation `"t0tal"`): no
variation of any field reaches the `0.7` threshold, and the strategy
leaves the record - in particular `total` - completely unchanged. -/
theorem C4_fuzzy_total_code_bug :
    (IntelligentParser.calculateSimilarity "t0tal 55.00" "t0tal").toRat = 5 / 11 ∧
    (IntelligentParser.calculateSimilarity "t0tal 55.00" "t0tal").toRat < 7 / 10 ∧
    (IntelligentParser.fuzzyPatterns.all (fun fp => fp.2.all (fun v =>
      !IntelligentParser.fuzzyMatch "t0tal 55.00" v))) = true ∧
    IntelligentParser.extractWithFuzzyMatching { id := "" } ["T0TAL 55.00"] = { id := "" } := by
  rw [Q.toRat_eq_div 5 11 (by decide)]
  refine ⟨by norm_num, by norm_num, by decide, by decide⟩

/-- A fold whose step never changes the accumulator returns its initial
value. -/
theorem foldl_fixed_of_step_id {α β : Type} (f : β → α → β) (l : List α) (b : β)
    (h : ∀ b x, x ∈ l → f b x = b) : l.foldl f b = b := by
  induction l generalizing b with
  | nil => rfl
  | cons a t ih =>
    rw [List.foldl_cons, h b a (by simp)]
    exact ih b (fun b x hx => h b x (by simp [hx]))

/-- C3, counterexample: with one variant, one configuration, and the single
recognition attempt throwing, `performMultiEngineOCR` completes and returns
the initial empty best result (`text = ""`, quality `0`) - it is an
ordinary result, and no "no usable recognition result" error exists
anywhere in the orchestrator. -/
theorem C3_all_fail_counterexample :
    EnterpriseOCREngine.performMultiEngineOCR [⟨"enhanced"⟩] [⟨"uniform_block"⟩]
      (fun _ _ => none) =
      { text := "", confidence := 0, method := "", processingTime := 0 } := by decide

/-- C3, amended: for every variant list, configuration list and recognition
oracle, if every attempt throws then the orchestrator still completes all
attempts (it is a total fold; failed attempts are skipped) and returns the
initial empty result - the "insufficient text" rejection is raised later
by the controller, not here. -/
theorem C3_all_fail_amended (variants : List EnterpriseOCREngine.ImageVariant)
    (configs : List EnterpriseOCREngine.OCRConfig)
    (recognize : ℕ → ℕ → Option (String × Q × Q))
    (h : ∀ v c, recognize v c = none) :
    EnterpriseOCREngine.performMultiEngineOCR variants configs recognize =
      { text := "", confidence := 0, method := "", processingTime := 0 } := by
  unfold EnterpriseOCREngine.performMultiEngineOCR
  refine foldl_fixed_of_step_id _ _ _ (fun best v _ => ?_)
  refine foldl_fixed_of_step_id _ _ _ (fun best c _ => ?_)
  rw [h v c]

theorem C3_all_fail_amended_witness :
    EnterpriseOCREngine.performMultiEngineOCR
      [⟨"enhanced"⟩, ⟨"blackwhite"⟩] [⟨"uniform_block"⟩, ⟨"sparse_text"⟩]
      (fun _ _ => none) =
      { text := "", confidence := 0, method := "", processingTime := 0 } :=
  C3_all_fail_amended _ _ _ (fun _ _ => rfl)

theorem Q.ofNat_def (n : ℕ) : (OfNat.ofNat n : Q) = ⟨(OfNat.ofNat n : ℤ), 1⟩ := rfl

namespace EnterpriseOCREngine

open JS Regex

/-- The text-only additive adjustment inside `calculateQualityScore`:
monetary bonus, keyword bonus, length bonus, and the special-character
penalty, which the source applies only when the ratio exceeds `0.1`. -/
def qsAdjust (text : String) : ℤ :=
  (if jsTest moneyPat text then 15 else 0) +
  (if ((receiptWords.filter (fun w => jsIncludes (jsToLower text) (jsToLower w))).length) > 0
    then (((receiptWords.filter (fun w => jsIncludes (jsToLower text) (jsToLower w))).length * 3 : ℕ) : ℤ)
    else 0) +
  (if text.length > 50 ∧ text.length < 5000 then 5 else 0) -
  (if Q.blt ⟨1, 10⟩ (specialRatio text) then Q.jsRound (Q.mul (specialRatio text) 20) else 0)

/-- The sequential score mutations of `calculateQualityScore` amount to a
single clamped sum of the (`||0`-guarded) engine confidence and the
text-only adjustment `qsAdjust`. -/
theorem calculateQualityScore_eq (text : String) (confidence : Q) :
    calculateQualityScore text confidence =
      Q.jsMax 0 (Q.jsMin 100 (Q.add (if Q.truthy confidence then confidence else 0)
        (Q.ofInt (qsAdjust text)))) := by
  rcases confidence with ⟨cn, cd⟩
  simp only [calculateQualityScore, qsAdjust]
  congr 1
  congr 1
  split_ifs <;>
    simp only [Q.add, Q.sub, Q.neg, Q.ofInt, Q.ofNat_def, Q.mk.injEq] <;>
    constructor <;> (push_cast; try ring)

/-- The spec-side quality-score formula as claim C6 states it: identical to
the source's, except that the penalty `round(20 × specialCharRatio)` is
subtracted unconditionally (the source only subtracts it when the ratio
exceeds `0.1`).  This definition follows the claim's words, not the
source. -/
def specQualityScore (text : String) (confidence : Q) : Q :=
  Q.jsMax 0 (Q.jsMin 100 (Q.add (if Q.truthy confidence then confidence else 0)
    (Q.ofInt ((if jsTest moneyPat text then 15 else 0) +
      (if ((receiptWords.filter (fun w => jsIncludes (jsToLower text) (jsToLower w))).length) > 0
        then (((receiptWords.filter (fun w => jsIncludes (jsToLower text) (jsToLower w))).length * 3 : ℕ) : ℤ)
        else 0) +
      (if text.length > 50 ∧ text.length < 5000 then 5 else 0) -
      Q.jsRound (Q.mul (specialRatio text) 20)))))

end EnterpriseOCREngine

/-- C6, counterexample: for the 20-character text of nineteen `a`s and one
`€`, the special-character ratio is `1/20 = 0.05 ≤ 0.1`, so the code
applies no penalty and scores `50`, while the claim's unconditional
`round(20 × 0.05) = 1` penalty would give `49`. -/
theorem C6_quality_counterexample :
    (EnterpriseOCREngine.calculateQualityScore "aaaaaaaaaaaaaaaaaaa€" 50).toRat = 50 ∧
    (EnterpriseOCREngine.specQualityScore "aaaaaaaaaaaaaaaaaaa€" 50).toRat = 49 ∧
    (EnterpriseOCREngine.calculateQualityScore "aaaaaaaaaaaaaaaaaaa€" 50).toRat ≠
      (EnterpriseOCREngine.specQualityScore "aaaaaaaaaaaaaaaaaaa€" 50).toRat := by
  rw [Q.toRat_eq_div 50 1 (by decide), Q.toRat_eq_div 49 1 (by decide)]
  norm_num

/-- C6, amended: `calculateQualityScore(text, conf)` equals the clamp to
`[0, 100]` of `conf` (`0` when absent/falsy) plus 15 for a monetary-shaped
token, plus 3 per distinct receipt keyword, plus 5 for a length strictly
between 50 and 5000 characters, minus `round(20 × specialCharRatio)` -
the penalty applying only when `specialCharRatio > 0.1`. -/
theorem C6_quality_amended (text : String) (confidence : Q) :
    EnterpriseOCREngine.calculateQualityScore text confidence =
      Q.jsMax 0 (Q.jsMin 100 (Q.add (if Q.truthy confidence then confidence else 0)
        (Q.ofInt (EnterpriseOCREngine.qsAdjust text)))) :=
  EnterpriseOCREngine.calculateQualityScore_eq text confidence

theorem Q.orZero_valid {c : Q} (h : c.valid) : (if Q.truthy c then c else 0).valid := by
  split
  · exact h
  · exact Q.valid_ofNat 0

theorem Q.orZero_toRat {c : Q} (h : c.valid) :
    (if Q.truthy c then c else 0).toRat = c.toRat := by
  rcases c with ⟨cn, cd⟩
  by_cases ht : Q.truthy ⟨cn, cd⟩ = true
  · simp [ht]
  · simp only [Q.truthy, Bool.and_eq_true, decide_eq_true_eq, ne_eq] at ht
    have hz : cn = 0 := by
      by_contra hc
      exact ht ⟨h, by simpa using hc⟩
    subst hz
    simp [Q.truthy, Q.toRat, Q.ofNat_def, Q.ofInt]

/-- C7: for a fixed text, the quality score is monotonically non-decreasing
in the engine confidence: the confidence enters the formula once,
additively, under the monotone clamp to `[0, 100]`. -/
theorem C7_quality_monotone (text : String) (c1 c2 : Q) (h1 : c1.valid) (h2 : c2.valid)
    (h : c1.toRat ≤ c2.toRat) :
    (EnterpriseOCREngine.calculateQualityScore text c1).toRat ≤
      (EnterpriseOCREngine.calculateQualityScore text c2).toRat := by
  rw [EnterpriseOCREngine.calculateQualityScore_eq, EnterpriseOCREngine.calculateQualityScore_eq]
  have v1 := Q.orZero_valid h1
  have v2 := Q.orZero_valid h2
  have a1 := Q.valid_add v1 (Q.valid_ofInt (EnterpriseOCREngine.qsAdjust text))
  have a2 := Q.valid_add v2 (Q.valid_ofInt (EnterpriseOCREngine.qsAdjust text))
  rw [Q.toRat_jsMax (Q.valid_ofNat 0) (Q.valid_jsMin (Q.valid_ofNat 100) a1),
    Q.toRat_jsMax (Q.valid_ofNat 0) (Q.valid_jsMin (Q.valid_ofNat 100) a2),
    Q.toRat_jsMin (Q.valid_ofNat 100) a1, Q.toRat_jsMin (Q.valid_ofNat 100) a2,
    Q.toRat_add v1 (Q.valid_ofInt _), Q.toRat_add v2 (Q.valid_ofInt _),
    Q.orZero_toRat h1, Q.orZero_toRat h2]
  exact max_le_max le_rfl (min_le_min le_rfl (add_le_add_right h _))

theorem C7_quality_monotone_witness :
    (10 : Q).valid ∧ (20 : Q).valid ∧ (10 : Q).toRat ≤ (20 : Q).toRat ∧
    (EnterpriseOCREngine.calculateQualityScore "total" 10).toRat ≤
      (EnterpriseOCREngine.calculateQualityScore "total" 20).toRat :=
  ⟨by decide, by decide, Q.toRat_le_of_ble (by decide),
    C7_quality_monotone "total" 10 20 (by decide) (by decide)
      (Q.toRat_le_of_ble (by decide))⟩

/-- Closed form of `IntelligentParser.calculateSimilarity` as one fraction. -/
theorem IntelligentParser.calculateSimilarity_eval (s1 s2 : String) :
    IntelligentParser.calculateSimilarity s1 s2 =
      if max s1.length s2.length = 0 then Q.ofInt 1
      else ⟨(max s1.length s2.length : ℤ) -
          ((levenshtein Levenshtein.defaultCost s1.toList s2.toList : ℕ) : ℤ),
        (max s1.length s2.length : ℤ)⟩ := by
  simp only [IntelligentParser.calculateSimilarity]
  split
  · rfl
  · simp only [Q.div, Q.ofInt]
    rw [if_pos (by positivity)]
    simp

/-- C10: `calculateSimilarity` always returns a well-formed number in
`[0, 1]`, is symmetric in its two arguments, equals `1` on identical
strings (including both empty), and `fuzzyMatch` is exactly the comparison
of that value against the threshold `7/10`, so the threshold test is
well-defined and total. -/
theorem C10_similarity_wellformed (s1 s2 : String) :
    (IntelligentParser.calculateSimilarity s1 s2).valid ∧
    0 ≤ (IntelligentParser.calculateSimilarity s1 s2).toRat ∧
    (IntelligentParser.calculateSimilarity s1 s2).toRat ≤ 1 ∧
    IntelligentParser.calculateSimilarity s1 s2 =
      IntelligentParser.calculateSimilarity s2 s1 ∧
    (IntelligentParser.calculateSimilarity s1 s1).toRat = 1 ∧
    (IntelligentParser.fuzzyMatch s1 s2 = true ↔
      7 / 10 ≤ (IntelligentParser.calculateSimilarity s1 s2).toRat) := by
  have hD : levenshtein Levenshtein.defaultCost s1.toList s2.toList ≤
      max s1.length s2.length := levenshtein_le_max s1.toList s2.toList
  have hval : (IntelligentParser.calculateSimilarity s1 s2).valid := by
    rw [IntelligentParser.calculateSimilarity_eval]
    split
    · exact Q.valid_ofInt 1
    · next hM =>
      simp only [Q.valid]
      exact_mod_cast Nat.pos_of_ne_zero hM
  have htoRat : ∀ _ : max s1.length s2.length ≠ 0,
      (IntelligentParser.calculateSimilarity s1 s2).toRat =
        ((max s1.length s2.length : ℚ) -
          ((levenshtein Levenshtein.defaultCost s1.toList s2.toList : ℕ) : ℚ)) /
          (max s1.length s2.length : ℚ) := by
    intro h
    rw [IntelligentParser.calculateSimilarity_eval, if_neg h]
    simp only [Q.toRat]
    push_cast
    ring
  have h0le : 0 ≤ (IntelligentParser.calculateSimilarity s1 s2).toRat := by
    by_cases hM : max s1.length s2.length = 0
    · rw [IntelligentParser.calculateSimilarity_eval, if_pos hM]
      norm_num [Q.toRat, Q.ofInt]
    · rw [htoRat hM]
      apply div_nonneg
      · exact sub_nonneg.2 (by exact_mod_cast hD)
      · positivity
  have hle1 : (IntelligentParser.calculateSimilarity s1 s2).toRat ≤ 1 := by
    by_cases hM : max s1.length s2.length = 0
    · rw [IntelligentParser.calculateSimilarity_eval, if_pos hM]
      norm_num [Q.toRat, Q.ofInt]
    · rw [htoRat hM]
      have hMpos : (0 : ℚ) < (max s1.length s2.length : ℚ) := by
        exact_mod_cast Nat.pos_of_ne_zero hM
      rw [div_le_one hMpos]
      have : (0 : ℚ) ≤
          ((levenshtein Levenshtein.defaultCost s1.toList s2.toList : ℕ) : ℚ) := by
        positivity
      linarith
  have hsymm : IntelligentParser.calculateSimilarity s1 s2 =
      IntelligentParser.calculateSimilarity s2 s1 := by
    rw [IntelligentParser.calculateSimilarity_eval s1 s2,
      IntelligentParser.calculateSimilarity_eval s2 s1,
      levenshtein_comm s1.toList s2.toList, Nat.max_comm s1.length s2.length,
      max_comm (s1.length : ℤ) (s2.length : ℤ)]
  have hself : (IntelligentParser.calculateSimilarity s1 s1).toRat = 1 := by
    rw [IntelligentParser.calculateSimilarity_eval]
    rcases Nat.eq_zero_or_pos s1.length with h0 | hpos
    · rw [if_pos (by omega)]
      norm_num [Q.toRat, Q.ofInt]
    · rw [if_neg (by omega), levenshtein_self]
      have hne : ((s1.length : ℕ) : ℚ) ≠ 0 := by exact_mod_cast hpos.ne'
      simp [Q.toRat, Nat.max_self, div_self hne]
  have hiff : IntelligentParser.fuzzyMatch s1 s2 = true ↔
      7 / 10 ≤ (IntelligentParser.calculateSimilarity s1 s2).toRat := by
    have hthr : (IntelligentParser.config.fuzzyMatchThreshold).toRat = 7 / 10 := by
      norm_num [IntelligentParser.config, Q.toRat]
    rw [IntelligentParser.fuzzyMatch, Q.ble_iff_toRat (by decide) hval, hthr]
  exact ⟨hval, h0le, hle1, hsymm, hself, hiff⟩

/-- The retry loop uses at most `attempt + fuel` attempts, counting from
the index it starts at. -/
theorem EnterpriseOCRService.procLoop_attempts_le (env : EnterpriseOCRService.Env)
    (m : ℕ) : ∀ fuel attempt : ℕ,
    (EnterpriseOCRService.procLoop env m attempt fuel).performance.attemptsUsed ≤
      attempt + fuel := by
  intro fuel
  induction fuel with
  | zero =>
    intro attempt
    simp [EnterpriseOCRService.procLoop, EnterpriseOCRService.createErrorResult]
  | succ fuel ih =>
    intro attempt
    simp only [EnterpriseOCRService.procLoop]
    split <;> split_ifs <;>
      first
        | exact Nat.add_le_add_left (Nat.succ_le_succ (Nat.zero_le fuel)) attempt
        | exact le_trans (ih (attempt + 1))
            (by omega : attempt + 1 + fuel ≤ attempt + (fuel + 1))

/-- C2: for every document environment and every options object,
`processDocument` returns a result whose `performance.attemptsUsed` is at
most `maxRetries + 1`, with `maxRetries` defaulting to `2`; this holds on
the initialisation-failure, validation-failure, per-attempt error,
low-quality-exhaustion and success paths alike. -/
theorem C2_attempts_bound (env : EnterpriseOCRService.Env)
    (options : EnterpriseOCRService.ProcessingOptions) :
    (EnterpriseOCRService.processDocument env options).performance.attemptsUsed ≤
      options.maxRetries.getD 2 + 1 := by
  simp only [EnterpriseOCRService.processDocument]
  split
  · simp [EnterpriseOCRService.createErrorResult]
  · split
    · simp [EnterpriseOCRService.createErrorResult]
    · simpa using
        EnterpriseOCRService.procLoop_attempts_le env (options.maxRetries.getD 2)
          (options.maxRetries.getD 2 + 1) 0

theorem Q.ble_refl {a : Q} (h : 0 < a.den) : Q.ble a a = true := by
  simp [Q.ble, h]

theorem Q.truthy_of_blt_zero {a : Q} (h : Q.blt 0 a = true) : Q.truthy a = true := by
  rcases a with ⟨an, ad⟩
  simp only [Q.blt, Q.ofNat_def, Bool.and_eq_true, decide_eq_true_eq, zero_mul,
    mul_one] at h
  simp only [Q.truthy, Bool.and_eq_true, decide_eq_true_eq, ne_eq]
  obtain ⟨⟨-, h2⟩, h3⟩ := h
  exact ⟨h2, by omega⟩

theorem Q.ble_of_ble_blt {a b c : Q} (h1 : Q.ble a b = true) (h2 : Q.blt b c = true) :
    Q.ble a c = true := by
  have ha : a.valid := by
    have := h1
    simp only [Q.ble, Bool.and_eq_true, decide_eq_true_eq] at this
    exact this.1.1
  have hc : c.valid := by
    have := h2
    simp only [Q.blt, Bool.and_eq_true, decide_eq_true_eq] at this
    exact this.1.2
  exact (Q.ble_iff_toRat ha hc).2
    (le_trans (Q.toRat_le_of_ble h1) (le_of_lt (Q.toRat_lt_of_blt h2)))

theorem JS.optQTruthy_getD_den {o : Option Q} (h : JS.optQTruthy o = true) :
    0 < (o.getD ⟨0, 0⟩).den := by
  cases o with
  | none => simp [JS.optQTruthy] at h
  | some q =>
    simp only [JS.optQTruthy, Q.truthy, Bool.and_eq_true, decide_eq_true_eq] at h
    simpa using h.1

/-- A fold preserves any invariant its step function preserves. -/
theorem foldl_preserves {α β : Type} (P : α → Prop) (f : α → β → α)
    (l : List β) (a : α) (ha : P a) (hf : ∀ x b, P x → P (f x b)) :
    P (l.foldl f a) := by
  induction l generalizing a with
  | nil => exact ha
  | cons b t ih => exact ih _ (hf a b ha)

namespace IntelligentParser

/-- `processFuzzyMatchedLine` never changes an already-set `subtotal` or
`tax`. -/
theorem processFuzzyMatchedLine_sub_tax (d : ExtractedInvoiceData) (line ft : String) :
    (JS.optQTruthy d.subtotal = true →
      (processFuzzyMatchedLine d line ft).subtotal = d.subtotal) ∧
    (JS.optQTruthy d.tax = true →
      (processFuzzyMatchedLine d line ft).tax = d.tax) := by
  unfold processFuzzyMatchedLine
  constructor <;> intro h <;> (try dsimp only) <;> (repeat' split) <;>
    first | rfl | simp_all

/-- `processFuzzyMatchedLine` replaces an already-set (truthy) `total` only
by a strictly larger amount, and the result stays truthy. -/
theorem processFuzzyMatchedLine_total_mono (d : ExtractedInvoiceData) (line ft : String)
    (h : JS.optQTruthy d.total = true) :
    JS.optQTruthy (processFuzzyMatchedLine d line ft).total = true ∧
    ((processFuzzyMatchedLine d line ft).total = d.total ∨
      Q.blt (d.total.getD ⟨0, 0⟩)
        ((processFuzzyMatchedLine d line ft).total.getD ⟨0, 0⟩) = true) := by
  unfold processFuzzyMatchedLine
  split
  · exact ⟨h, Or.inl rfl⟩
  · dsimp only
    split
    next h1 =>
      split
      next h2 =>
        split
        next h3 =>
          refine ⟨Q.truthy_of_blt_zero h1, Or.inr ?_⟩
          simp only [h, Bool.not_true, Bool.false_or] at h3
          simpa using h3
        next h3 => exact ⟨h, Or.inl rfl⟩
      next h2 =>
        split
        next h4 =>
          split
          next h5 => exact ⟨h, Or.inl rfl⟩
          next h5 => exact ⟨h, Or.inl rfl⟩
        next h4 =>
          split
          next h6 =>
            split
            next h7 => exact ⟨h, Or.inl rfl⟩
            next h7 => exact ⟨h, Or.inl rfl⟩
          next h6 => exact ⟨h, Or.inl rfl⟩
    next h1 => exact ⟨h, Or.inl rfl⟩

end IntelligentParser

namespace IntelligentParser

/-- The fuzzy strategy never changes an already-set `subtotal`. -/
theorem extractWithFuzzyMatching_subtotal (d : ExtractedInvoiceData) (lines : List String)
    (h : JS.optQTruthy d.subtotal = true) :
    (extractWithFuzzyMatching d lines).subtotal = d.subtotal := by
  unfold extractWithFuzzyMatching
  refine foldl_preserves (fun x => x.subtotal = d.subtotal) _ lines d rfl ?_
  intro x line hx
  dsimp only
  refine foldl_preserves (fun y => y.subtotal = d.subtotal) _ fuzzyPatterns x hx ?_
  intro y fp hy
  split
  · have ht : JS.optQTruthy y.subtotal = true := by rw [hy]; exact h
    rw [(processFuzzyMatchedLine_sub_tax y line fp.1).1 ht, hy]
  · exact hy

/-- The fuzzy strategy never changes an already-set `tax`. -/
theorem extractWithFuzzyMatching_tax (d : ExtractedInvoiceData) (lines : List String)
    (h : JS.optQTruthy d.tax = true) :
    (extractWithFuzzyMatching d lines).tax = d.tax := by
  unfold extractWithFuzzyMatching
  refine foldl_preserves (fun x => x.tax = d.tax) _ lines d rfl ?_
  intro x line hx
  dsimp only
  refine foldl_preserves (fun y => y.tax = d.tax) _ fuzzyPatterns x hx ?_
  intro y fp hy
  split
  · have ht : JS.optQTruthy y.tax = true := by rw [hy]; exact h
    rw [(processFuzzyMatchedLine_sub_tax y line fp.1).2 ht, hy]
  · exact hy

/-- The fuzzy strategy keeps an already-set (truthy) `total` truthy and
never decreases it. -/
theorem extractWithFuzzyMatching_total_mono (d : ExtractedInvoiceData)
    (lines : List String) (h : JS.optQTruthy d.total = true) :
    JS.optQTruthy (extractWithFuzzyMatching d lines).total = true ∧
    Q.ble (d.total.getD ⟨0, 0⟩)
      ((extractWithFuzzyMatching d lines).total.getD ⟨0, 0⟩) = true := by
  unfold extractWithFuzzyMatching
  refine foldl_preserves (fun x => JS.optQTruthy x.total = true ∧
      Q.ble (d.total.getD ⟨0, 0⟩) (x.total.getD ⟨0, 0⟩) = true) _ lines d
    ⟨h, Q.ble_refl (JS.optQTruthy_getD_den h)⟩ ?_
  intro x line hx
  dsimp only
  refine foldl_preserves (fun y => JS.optQTruthy y.total = true ∧
      Q.ble (d.total.getD ⟨0, 0⟩) (y.total.getD ⟨0, 0⟩) = true) _ fuzzyPatterns x hx ?_
  intro y fp hy
  split
  · obtain ⟨hty, hby⟩ := hy
    obtain ⟨ht2, hor⟩ := processFuzzyMatchedLine_total_mono y line fp.1 hty
    refine ⟨ht2, ?_⟩
    rcases hor with heq | hlt
    · rw [heq]; exact hby
    · exact Q.ble_of_ble_blt hby hlt
  · exact hy

/-- The pattern-matching strategy never touches the three amount fields. -/
theorem extractBasicFields_amounts (d : ExtractedInvoiceData) (lines : List String) :
    (extractBasicFields d lines).total = d.total ∧
    (extractBasicFields d lines).subtotal = d.subtotal ∧
    (extractBasicFields d lines).tax = d.tax := by
  unfold extractBasicFields
  refine foldl_preserves
    (fun x => x.total = d.total ∧ x.subtotal = d.subtotal ∧ x.tax = d.tax) _ lines d
    ⟨rfl, rfl, rfl⟩ ?_
  intro x line hx
  dsimp only
  (repeat' split) <;> exact hx

/-- The contextual strategy never touches the three amount fields. -/
theorem extractContextualFields_amounts (d : ExtractedInvoiceData) (lines : List String)
    (rawText : String) :
    (extractContextualFields d lines rawText).total = d.total ∧
    (extractContextualFields d lines rawText).subtotal = d.subtotal ∧
    (extractContextualFields d lines rawText).tax = d.tax := by
  unfold extractContextualFields
  dsimp only
  (repeat' split) <;> exact ⟨rfl, rfl, rfl⟩

/-- The overflow-capture step never touches the three amount fields. -/
theorem extractExtraFields_amounts (d : ExtractedInvoiceData) (lines : List String) :
    (extractExtraFields d lines).total = d.total ∧
    (extractExtraFields d lines).subtotal = d.subtotal ∧
    (extractExtraFields d lines).tax = d.tax := by
  unfold extractExtraFields
  dsimp only
  (repeat' split) <;> exact ⟨rfl, rfl, rfl⟩

/-- The business-data strategy never touches the three amount fields. -/
theorem extractBusinessData_amounts (d : ExtractedInvoiceData) (lines : List String)
    (rawText : String) :
    (extractBusinessData d lines rawText).total = d.total ∧
    (extractBusinessData d lines rawText).subtotal = d.subtotal ∧
    (extractBusinessData d lines rawText).tax = d.tax := by
  unfold extractBusinessData
  dsimp only
  rw [(extractExtraFields_amounts _ lines).1, (extractExtraFields_amounts _ lines).2.1,
    (extractExtraFields_amounts _ lines).2.2]
  refine foldl_preserves
    (fun x => x.total = d.total ∧ x.subtotal = d.subtotal ∧ x.tax = d.tax) _ lines d
    ⟨rfl, rfl, rfl⟩ ?_
  intro x line hx
  dsimp only
  (repeat' split) <;> exact hx

/-- Validation and cleaning never touches the three amount fields. -/
theorem validateAndCleanData_amounts (jsdv : String → Bool) (d : ExtractedInvoiceData) :
    (validateAndCleanData jsdv d).total = d.total ∧
    (validateAndCleanData jsdv d).subtotal = d.subtotal ∧
    (validateAndCleanData jsdv d).tax = d.tax := by
  unfold validateAndCleanData
  dsimp only
  (repeat' split) <;> exact ⟨rfl, rfl, rfl⟩

end IntelligentParser

namespace IntelligentParser

/-- Context-driven amount assignment never changes an already-set `total`. -/
theorem assignAmountsWithContext_total (d : ExtractedInvoiceData)
    (amounts : List ParsedAmount) (lines : List String)
    (h : JS.optQTruthy d.total = true) :
    (assignAmountsWithContext d amounts lines).total = d.total := by
  unfold assignAmountsWithContext
  refine foldl_preserves (fun x => x.total = d.total) _ _ d rfl ?_
  intro x i hx
  dsimp only
  (repeat' split) <;> first | exact hx | simp_all

/-- Context-driven amount assignment never changes an already-set
`subtotal`. -/
theorem assignAmountsWithContext_subtotal (d : ExtractedInvoiceData)
    (amounts : List ParsedAmount) (lines : List String)
    (h : JS.optQTruthy d.subtotal = true) :
    (assignAmountsWithContext d amounts lines).subtotal = d.subtotal := by
  unfold assignAmountsWithContext
  refine foldl_preserves (fun x => x.subtotal = d.subtotal) _ _ d rfl ?_
  intro x i hx
  dsimp only
  (repeat' split) <;> first | exact hx | simp_all

/-- Context-driven amount assignment never changes an already-set `tax`. -/
theorem assignAmountsWithContext_tax (d : ExtractedInvoiceData)
    (amounts : List ParsedAmount) (lines : List String)
    (h : JS.optQTruthy d.tax = true) :
    (assignAmountsWithContext d amounts lines).tax = d.tax := by
  unfold assignAmountsWithContext
  refine foldl_preserves (fun x => x.tax = d.tax) _ _ d rfl ?_
  intro x i hx
  dsimp only
  (repeat' split) <;> first | exact hx | simp_all

/-- The fallback amount assignment never changes an already-set `total`
and never touches `subtotal` or `tax`. -/
theorem finalizeAmountAssignment_amounts (d : ExtractedInvoiceData)
    (amounts : List ParsedAmount) :
    (JS.optQTruthy d.total = true →
      (finalizeAmountAssignment d amounts).total = d.total) ∧
    (finalizeAmountAssignment d amounts).subtotal = d.subtotal ∧
    (finalizeAmountAssignment d amounts).tax = d.tax := by
  unfold finalizeAmountAssignment
  dsimp only
  refine ⟨fun h => ?_, ?_, ?_⟩ <;> (repeat' split) <;> first | rfl | simp_all

/-- The amount-resolution strategy never changes already-set (truthy)
amount fields. -/
theorem extractAmountsAdvanced_amounts (d : ExtractedInvoiceData)
    (lines : List String) (rawText : String) :
    (JS.optQTruthy d.total = true →
      (extractAmountsAdvanced d lines rawText).total = d.total) ∧
    (JS.optQTruthy d.subtotal = true →
      (extractAmountsAdvanced d lines rawText).subtotal = d.subtotal) ∧
    (JS.optQTruthy d.tax = true →
      (extractAmountsAdvanced d lines rawText).tax = d.tax) := by
  unfold extractAmountsAdvanced
  dsimp only
  refine ⟨fun h => ?_, fun h => ?_, fun h => ?_⟩
  · have h1 := assignAmountsWithContext_total d (extractAllAmounts rawText) lines h
    have h2 : JS.optQTruthy
        (assignAmountsWithContext d (extractAllAmounts rawText) lines).total = true := by
      rw [h1]; exact h
    rw [(finalizeAmountAssignment_amounts _ _).1 h2, h1]
  · rw [(finalizeAmountAssignment_amounts _ _).2.1,
      assignAmountsWithContext_subtotal d (extractAllAmounts rawText) lines h]
  · rw [(finalizeAmountAssignment_amounts _ _).2.2,
      assignAmountsWithContext_tax d (extractAllAmounts rawText) lines h]

end IntelligentParser

set_option maxRecDepth 100000 in
/-- C8, counterexample: the fuzzy-matching strategy does not only fill
fields not yet set.  On the line list from the raw text
"total 5\ntotal 9" the first successful match assigns `total = 5`, but the
second line overwrites it with `9`; starting from a record whose `total`
is already `5`, the strategy replaces it with `9`; and the full
`parseInvoiceData` pipeline on that raw text ends with `total = 9`, not
the first match's `5`. -/
theorem C8_overwrite_counterexample :
    Q.beq ((IntelligentParser.extractWithFuzzyMatching { id := "" }
      ["total 5"]).total.getD ⟨0, 0⟩) 5 = true ∧
    Q.beq ((IntelligentParser.extractWithFuzzyMatching { id := "" }
      ["total 5", "total 9"]).total.getD ⟨0, 0⟩) 9 = true ∧
    Q.beq ((IntelligentParser.extractWithFuzzyMatching
      { id := "", total := some ⟨5, 1⟩ } ["total 9"]).total.getD ⟨0, 0⟩) 9 = true ∧
    ¬((IntelligentParser.extractWithFuzzyMatching { id := "", total := some ⟨5, 1⟩ }
      ["total 9"]).total = some ⟨5, 1⟩) ∧
    Q.beq ((IntelligentParser.parseInvoiceData (fun _ => true) "u" "total 5\ntotal 9"
      "f" none none).total.getD ⟨0, 0⟩) 9 = true := by
  exact ⟨by decide, by decide, by decide, by decide, by decide⟩

/-- C8, amended: the strategies do run in the fixed pipeline order, and
every strategy except fuzzy matching leaves already-set `total`,
`subtotal` and `tax` values unchanged; the fuzzy strategy also preserves
set `subtotal` and `tax`, but it replaces a set `total` whenever a
fuzzy-matched line carries a larger amount — the set `total` stays truthy
and never decreases, and a single fuzzy-processed line either keeps
`total` or strictly increases it. -/
theorem C8_fill_discipline (d : ExtractedInvoiceData) (lines : List String)
    (rawText line ft : String) (jsdv : String → Bool)
    (ht : JS.optQTruthy d.total = true)
    (hs : JS.optQTruthy d.subtotal = true)
    (hx : JS.optQTruthy d.tax = true) :
    (IntelligentParser.extractBasicFields d lines).total = d.total ∧
    (IntelligentParser.extractBasicFields d lines).subtotal = d.subtotal ∧
    (IntelligentParser.extractBasicFields d lines).tax = d.tax ∧
    (IntelligentParser.extractContextualFields d lines rawText).total = d.total ∧
    (IntelligentParser.extractContextualFields d lines rawText).subtotal = d.subtotal ∧
    (IntelligentParser.extractContextualFields d lines rawText).tax = d.tax ∧
    (IntelligentParser.extractWithFuzzyMatching d lines).subtotal = d.subtotal ∧
    (IntelligentParser.extractWithFuzzyMatching d lines).tax = d.tax ∧
    JS.optQTruthy (IntelligentParser.extractWithFuzzyMatching d lines).total = true ∧
    Q.ble (d.total.getD ⟨0, 0⟩)
      ((IntelligentParser.extractWithFuzzyMatching d lines).total.getD ⟨0, 0⟩) = true ∧
    ((IntelligentParser.processFuzzyMatchedLine d line ft).total = d.total ∨
      Q.blt (d.total.getD ⟨0, 0⟩)
        ((IntelligentParser.processFuzzyMatchedLine d line ft).total.getD ⟨0, 0⟩) = true) ∧
    (IntelligentParser.extractAmountsAdvanced d lines rawText).total = d.total ∧
    (IntelligentParser.extractAmountsAdvanced d lines rawText).subtotal = d.subtotal ∧
    (IntelligentParser.extractAmountsAdvanced d lines rawText).tax = d.tax ∧
    (IntelligentParser.extractBusinessData d lines rawText).total = d.total ∧
    (IntelligentParser.extractBusinessData d lines rawText).subtotal = d.subtotal ∧
    (IntelligentParser.extractBusinessData d lines rawText).tax = d.tax ∧
    (IntelligentParser.validateAndCleanData jsdv d).total = d.total ∧
    (IntelligentParser.validateAndCleanData jsdv d).subtotal = d.subtotal ∧
    (IntelligentParser.validateAndCleanData jsdv d).tax = d.tax := by
  obtain ⟨b1, b2, b3⟩ := IntelligentParser.extractBasicFields_amounts d lines
  obtain ⟨c1, c2, c3⟩ := IntelligentParser.extractContextualFields_amounts d lines rawText
  obtain ⟨m1, m2⟩ := IntelligentParser.extractWithFuzzyMatching_total_mono d lines ht
  obtain ⟨a1, a2, a3⟩ := IntelligentParser.extractAmountsAdvanced_amounts d lines rawText
  obtain ⟨g1, g2, g3⟩ := IntelligentParser.extractBusinessData_amounts d lines rawText
  obtain ⟨v1, v2, v3⟩ := IntelligentParser.validateAndCleanData_amounts jsdv d
  exact ⟨b1, b2, b3, c1, c2, c3,
    IntelligentParser.extractWithFuzzyMatching_subtotal d lines hs,
    IntelligentParser.extractWithFuzzyMatching_tax d lines hx,
    m1, m2,
    (IntelligentParser.processFuzzyMatchedLine_total_mono d line ft ht).2,
    a1 ht, a2 hs, a3 hx, g1, g2, g3, v1, v2, v3⟩

set_option maxRecDepth 100000 in
theorem C8_fill_discipline_witness :
    JS.optQTruthy ({ id := "", total := some ⟨5, 1⟩, subtotal := some ⟨2, 1⟩, tax := some ⟨1, 1⟩ } : ExtractedInvoiceData).total = true ∧
    JS.optQTruthy ({ id := "", total := some ⟨5, 1⟩, subtotal := some ⟨2, 1⟩, tax := some ⟨1, 1⟩ } : ExtractedInvoiceData).subtotal = true ∧
    JS.optQTruthy ({ id := "", total := some ⟨5, 1⟩, subtotal := some ⟨2, 1⟩, tax := some ⟨1, 1⟩ } : ExtractedInvoiceData).tax = true ∧
    ((IntelligentParser.extractBasicFields { id := "", total := some ⟨5, 1⟩, subtotal := some ⟨2, 1⟩, tax := some ⟨1, 1⟩ } ["total 9"]).total = ({ id := "", total := some ⟨5, 1⟩, subtotal := some ⟨2, 1⟩, tax := some ⟨1, 1⟩ } : ExtractedInvoiceData).total ∧
      (IntelligentParser.extractBasicFields { id := "", total := some ⟨5, 1⟩, subtotal := some ⟨2, 1⟩, tax := some ⟨1, 1⟩ } ["total 9"]).subtotal = ({ id := "", total := some ⟨5, 1⟩, subtotal := some ⟨2, 1⟩, tax := some ⟨1, 1⟩ } : ExtractedInvoiceData).subtotal ∧
      (IntelligentParser.extractBasicFields { id := "", total := some ⟨5, 1⟩, subtotal := some ⟨2, 1⟩, tax := some ⟨1, 1⟩ } ["total 9"]).tax = ({ id := "", total := some ⟨5, 1⟩, subtotal := some ⟨2, 1⟩, tax := some ⟨1, 1⟩ } : ExtractedInvoiceData).tax ∧
      (IntelligentParser.extractContextualFields { id := "", total := some ⟨5, 1⟩, subtotal := some ⟨2, 1⟩, tax := some ⟨1, 1⟩ } ["total 9"] "total 9").total = ({ id := "", total := some ⟨5, 1⟩, subtotal := some ⟨2, 1⟩, tax := some ⟨1, 1⟩ } : ExtractedInvoiceData).total ∧
      (IntelligentParser.extractContextualFields { id := "", total := some ⟨5, 1⟩, subtotal := some ⟨2, 1⟩, tax := some ⟨1, 1⟩ } ["total 9"] "total 9").subtotal = ({ id := "", total := some ⟨5, 1⟩, subtotal := some ⟨2, 1⟩, tax := some ⟨1, 1⟩ } : ExtractedInvoiceData).subtotal ∧
      (IntelligentParser.extractContextualFields { id := "", total := some ⟨5, 1⟩, subtotal := some ⟨2, 1⟩, tax := some ⟨1, 1⟩ } ["total 9"] "total 9").tax = ({ id := "", total := some ⟨5, 1⟩, subtotal := some ⟨2, 1⟩, tax := some ⟨1, 1⟩ } : ExtractedInvoiceData).tax ∧
      (IntelligentParser.extractWithFuzzyMatching { id := "", total := some ⟨5, 1⟩, subtotal := some ⟨2, 1⟩, tax := some ⟨1, 1⟩ } ["total 9"]).subtotal = ({ id := "", total := some ⟨5, 1⟩, subtotal := some ⟨2, 1⟩, tax := some ⟨1, 1⟩ } : ExtractedInvoiceData).subtotal ∧
      (IntelligentParser.extractWithFuzzyMatching { id := "", total := some ⟨5, 1⟩, subtotal := some ⟨2, 1⟩, tax := some ⟨1, 1⟩ } ["total 9"]).tax = ({ id := "", total := some ⟨5, 1⟩, subtotal := some ⟨2, 1⟩, tax := some ⟨1, 1⟩ } : ExtractedInvoiceData).tax ∧
      JS.optQTruthy (IntelligentParser.extractWithFuzzyMatching { id := "", total := some ⟨5, 1⟩, subtotal := some ⟨2, 1⟩, tax := some ⟨1, 1⟩ } ["total 9"]).total = true ∧
      Q.ble (({ id := "", total := some ⟨5, 1⟩, subtotal := some ⟨2, 1⟩, tax := some ⟨1, 1⟩ } : ExtractedInvoiceData).total.getD ⟨0, 0⟩) ((IntelligentParser.extractWithFuzzyMatching { id := "", total := some ⟨5, 1⟩, subtotal := some ⟨2, 1⟩, tax := some ⟨1, 1⟩ } ["total 9"]).total.getD ⟨0, 0⟩) = true ∧
      ((IntelligentParser.processFuzzyMatchedLine { id := "", total := some ⟨5, 1⟩, subtotal := some ⟨2, 1⟩, tax := some ⟨1, 1⟩ } "total 9" "total").total = ({ id := "", total := some ⟨5, 1⟩, subtotal := some ⟨2, 1⟩, tax := some ⟨1, 1⟩ } : ExtractedInvoiceData).total ∨ Q.blt (({ id := "", total := some ⟨5, 1⟩, subtotal := some ⟨2, 1⟩, tax := some ⟨1, 1⟩ } : ExtractedInvoiceData).total.getD ⟨0, 0⟩) ((IntelligentParser.processFuzzyMatchedLine { id := "", total := some ⟨5, 1⟩, subtotal := some ⟨2, 1⟩, tax := some ⟨1, 1⟩ } "total 9" "total").total.getD ⟨0, 0⟩) = true) ∧
      (IntelligentParser.extractAmountsAdvanced { id := "", total := some ⟨5, 1⟩, subtotal := some ⟨2, 1⟩, tax := some ⟨1, 1⟩ } ["total 9"] "total 9").total = ({ id := "", total := some ⟨5, 1⟩, subtotal := some ⟨2, 1⟩, tax := some ⟨1, 1⟩ } : ExtractedInvoiceData).total ∧
      (IntelligentParser.extractAmountsAdvanced { id := "", total := some ⟨5, 1⟩, subtotal := some ⟨2, 1⟩, tax := some ⟨1, 1⟩ } ["total 9"] "total 9").subtotal = ({ id := "", total := some ⟨5, 1⟩, subtotal := some ⟨2, 1⟩, tax := some ⟨1, 1⟩ } : ExtractedInvoiceData).subtotal ∧
      (IntelligentParser.extractAmountsAdvanced { id := "", total := some ⟨5, 1⟩, subtotal := some ⟨2, 1⟩, tax := some ⟨1, 1⟩ } ["total 9"] "total 9").tax = ({ id := "", total := some ⟨5, 1⟩, subtotal := some ⟨2, 1⟩, tax := some ⟨1, 1⟩ } : ExtractedInvoiceData).tax ∧
      (IntelligentParser.extractBusinessData { id := "", total := some ⟨5, 1⟩, subtotal := some ⟨2, 1⟩, tax := some ⟨1, 1⟩ } ["total 9"] "total 9").total = ({ id := "", total := some ⟨5, 1⟩, subtotal := some ⟨2, 1⟩, tax := some ⟨1, 1⟩ } : ExtractedInvoiceData).total ∧
      (IntelligentParser.extractBusinessData { id := "", total := some ⟨5, 1⟩, subtotal := some ⟨2, 1⟩, tax := some ⟨1, 1⟩ } ["total 9"] "total 9").subtotal = ({ id := "", total := some ⟨5, 1⟩, subtotal := some ⟨2, 1⟩, tax := some ⟨1, 1⟩ } : ExtractedInvoiceData).subtotal ∧
      (IntelligentParser.extractBusinessData { id := "", total := some ⟨5, 1⟩, subtotal := some ⟨2, 1⟩, tax := some ⟨1, 1⟩ } ["total 9"] "total 9").tax = ({ id := "", total := some ⟨5, 1⟩, subtotal := some ⟨2, 1⟩, tax := some ⟨1, 1⟩ } : ExtractedInvoiceData).tax ∧
      (IntelligentParser.validateAndCleanData (fun _ => true) { id := "", total := some ⟨5, 1⟩, subtotal := some ⟨2, 1⟩, tax := some ⟨1, 1⟩ }).total = ({ id := "", total := some ⟨5, 1⟩, subtotal := some ⟨2, 1⟩, tax := some ⟨1, 1⟩ } : ExtractedInvoiceData).total ∧
      (IntelligentParser.validateAndCleanData (fun _ => true) { id := "", total := some ⟨5, 1⟩, subtotal := some ⟨2, 1⟩, tax := some ⟨1, 1⟩ }).subtotal = ({ id := "", total := some ⟨5, 1⟩, subtotal := some ⟨2, 1⟩, tax := some ⟨1, 1⟩ } : ExtractedInvoiceData).subtotal ∧
      (IntelligentParser.validateAndCleanData (fun _ => true) { id := "", total := some ⟨5, 1⟩, subtotal := some ⟨2, 1⟩, tax := some ⟨1, 1⟩ }).tax = ({ id := "", total := some ⟨5, 1⟩, subtotal := some ⟨2, 1⟩, tax := some ⟨1, 1⟩ } : ExtractedInvoiceData).tax) :=
  ⟨by decide, by decide, by decide,
    C8_fill_discipline { id := "", total := some ⟨5, 1⟩, subtotal := some ⟨2, 1⟩, tax := some ⟨1, 1⟩ } ["total 9"] "total 9" "total 9" "total" (fun _ => true) (by decide) (by decide) (by decide)⟩

namespace IntelligentParser

theorem extractBasicFields_rawText (d : ExtractedInvoiceData) (lines : List String) :
    (extractBasicFields d lines).rawText = d.rawText := by
  unfold extractBasicFields
  refine foldl_preserves (fun x => x.rawText = d.rawText) _ lines d rfl ?_
  intro x line hx
  dsimp only
  (repeat' split) <;> exact hx

theorem extractContextualFields_rawText (d : ExtractedInvoiceData) (lines : List String)
    (rawText : String) :
    (extractContextualFields d lines rawText).rawText = d.rawText := by
  unfold extractContextualFields
  dsimp only
  (repeat' split) <;> rfl

theorem processFuzzyMatchedLine_rawText (d : ExtractedInvoiceData) (line ft : String) :
    (processFuzzyMatchedLine d line ft).rawText = d.rawText := by
  unfold processFuzzyMatchedLine
  dsimp only
  (repeat' split) <;> rfl

theorem extractWithFuzzyMatching_rawText (d : ExtractedInvoiceData)
    (lines : List String) :
    (extractWithFuzzyMatching d lines).rawText = d.rawText := by
  unfold extractWithFuzzyMatching
  refine foldl_preserves (fun x => x.rawText = d.rawText) _ lines d rfl ?_
  intro x line hx
  dsimp only
  refine foldl_preserves (fun y => y.rawText = d.rawText) _ fuzzyPatterns x hx ?_
  intro y fp hy
  split
  · rw [processFuzzyMatchedLine_rawText y line fp.1]
    exact hy
  · exact hy

theorem assignAmountsWithContext_rawText (d : ExtractedInvoiceData)
    (amounts : List ParsedAmount) (lines : List String) :
    (assignAmountsWithContext d amounts lines).rawText = d.rawText := by
  unfold assignAmountsWithContext
  refine foldl_preserves (fun x => x.rawText = d.rawText) _ _ d rfl ?_
  intro x i hx
  dsimp only
  (repeat' split) <;> exact hx

theorem finalizeAmountAssignment_rawText (d : ExtractedInvoiceData)
    (amounts : List ParsedAmount) :
    (finalizeAmountAssignment d amounts).rawText = d.rawText := by
  unfold finalizeAmountAssignment
  dsimp only
  (repeat' split) <;> rfl

theorem extractAmountsAdvanced_rawText (d : ExtractedInvoiceData) (lines : List String)
    (rawText : String) :
    (extractAmountsAdvanced d lines rawText).rawText = d.rawText := by
  unfold extractAmountsAdvanced
  dsimp only
  rw [finalizeAmountAssignment_rawText, assignAmountsWithContext_rawText]

theorem extractExtraFields_rawText (d : ExtractedInvoiceData) (lines : List String) :
    (extractExtraFields d lines).rawText = d.rawText := by
  unfold extractExtraFields
  dsimp only
  (repeat' split) <;> rfl

theorem extractBusinessData_rawText (d : ExtractedInvoiceData) (lines : List String)
    (rawText : String) :
    (extractBusinessData d lines rawText).rawText = d.rawText := by
  unfold extractBusinessData
  dsimp only
  rw [extractExtraFields_rawText]
  refine foldl_preserves (fun x => x.rawText = d.rawText) _ lines d rfl ?_
  intro x line hx
  dsimp only
  (repeat' split) <;> exact hx

theorem validateAndCleanData_rawText (jsdv : String → Bool) (d : ExtractedInvoiceData) :
    (validateAndCleanData jsdv d).rawText = d.rawText := by
  unfold validateAndCleanData
  dsimp only
  (repeat' split) <;> rfl

/-- `parseInvoiceData` carries the raw text it was given: no strategy ever
touches the `rawText` field of the record it seeds. -/
theorem parseInvoiceData_rawText (jsdv : String → Bool)
    (uuid rawText fileName : String) (pm : Option String) (c : Option Q) :
    (parseInvoiceData jsdv uuid rawText fileName pm c).rawText = some rawText := by
  unfold parseInvoiceData
  dsimp only
  rw [validateAndCleanData_rawText, extractBusinessData_rawText]
  dsimp only
  rw [extractAmountsAdvanced_rawText, extractWithFuzzyMatching_rawText,
    extractContextualFields_rawText, extractBasicFields_rawText]

end IntelligentParser

namespace EnterpriseOCRService

set_option maxHeartbeats 1600000 in
/-- When every attempt before the last is rejected and the final attempt
yields usable but unacceptable text, the retry loop ends in the
low-quality result built from the final attempt. -/
theorem procLoop_exhausted_aux (env : Env) (m : ℕ) (t : String)
    (hok : env.attempts m = Except.ok t)
    (hlen : (t == "" || decide ((JS.jsTrimS t).length < 10)) = false)
    (hlast : attemptAccepted env m true = false) :
    ∀ fuel attempt, attempt + fuel = m + 1 → attempt ≤ m →
      (∀ j, attempt ≤ j → j < m → attemptAccepted env j false = false) →
      procLoop env m attempt fuel = lowQualityResult env m t := by
  intro fuel
  induction fuel with
  | zero =>
    intro attempt hsum hle _
    omega
  | succ fuel ih =>
    intro attempt hsum hle hrej
    by_cases hm : attempt = m
    · subst hm
      have hacc : isResultAcceptable (attemptParse env t)
          (assessDataQuality (attemptParse env t)) true = false := by
        unfold attemptAccepted at hlast
        rw [hok] at hlast
        dsimp only at hlast
        rw [hlen] at hlast
        simpa using hlast
      simp only [procLoop, hok]
      rw [hlen]
      simp only [Bool.false_eq_true, if_false]
      try dsimp only
      simp only [eq_self_iff_true, decide_True]
      unfold attemptParse at hacc
      simp only [hacc, Bool.false_eq_true, if_false, if_true]
      unfold lowQualityResult attemptParse
      rfl
    · have hlt : attempt < m := lt_of_le_of_ne hle hm
      cases henv : env.attempts attempt with
      | error e =>
        simp only [procLoop, henv]
        rw [if_neg hm]
        exact ih (attempt + 1) (by omega) (by omega)
          (fun j hj1 hj2 => hrej j (by omega) hj2)
      | ok r =>
        have hr := hrej attempt le_rfl hlt
        unfold attemptAccepted at hr
        rw [henv] at hr
        dsimp only at hr
        simp only [procLoop, henv]
        by_cases hshort : (r == "" || decide ((JS.jsTrimS r).length < 10)) = true
        · rw [if_pos hshort, if_neg hm]
          exact ih (attempt + 1) (by omega) (by omega)
            (fun j hj1 hj2 => hrej j (by omega) hj2)
        · rw [if_neg hshort]
          rw [eq_false_of_ne_true hshort] at hr
          simp only [Bool.false_eq_true, if_false] at hr
          try dsimp only
          have hd : decide (attempt = m) = false := by simp [hm]
          rw [hd]
          unfold attemptParse at hr
          simp only [hr, Bool.false_eq_true, if_false]
          rw [if_neg hm]
          exact ih (attempt + 1) (by omega) (by omega)
            (fun j hj1 hj2 => hrej j (by omega) hj2)

end EnterpriseOCRService

set_option maxRecDepth 200000 in
/-- C9, counterexample: exhaustion does not always carry the best partial
record.  In an environment whose attempt 0 yields the 12-character text
"aaaaaaaaaaaa" (extracted but rejected for insufficient quality) and whose
attempt 1 times out, `processDocument` with `maxRetries = 1` resolves to
`success = false` whose data is the empty error record (`rawText` is the
empty string), even though attempt 0 had produced a partial record
carrying its raw text. -/
theorem C9_empty_data_counterexample :
    (EnterpriseOCRService.processDocument ⟨none, 0, "image/png", "f.png",
      fun k => if k = 0 then Except.ok "aaaaaaaaaaaa" else
        Except.error "OCR processing timeout", fun _ => true, "u"⟩
      { maxRetries := some 1 }).success = false ∧
    (EnterpriseOCRService.processDocument ⟨none, 0, "image/png", "f.png",
      fun k => if k = 0 then Except.ok "aaaaaaaaaaaa" else
        Except.error "OCR processing timeout", fun _ => true, "u"⟩
      { maxRetries := some 1 }).data.rawText = some "" ∧
    (EnterpriseOCRService.processDocument ⟨none, 0, "image/png", "f.png",
      fun k => if k = 0 then Except.ok "aaaaaaaaaaaa" else
        Except.error "OCR processing timeout", fun _ => true, "u"⟩
      { maxRetries := some 1 }).performance.attemptsUsed = 2 ∧
    (EnterpriseOCRService.attemptParse ⟨none, 0, "image/png", "f.png",
      fun k => if k = 0 then Except.ok "aaaaaaaaaaaa" else
        Except.error "OCR processing timeout", fun _ => true, "u"⟩
      "aaaaaaaaaaaa").rawText = some "aaaaaaaaaaaa" ∧
    EnterpriseOCRService.attemptAccepted ⟨none, 0, "image/png", "f.png",
      fun k => if k = 0 then Except.ok "aaaaaaaaaaaa" else
        Except.error "OCR processing timeout", fun _ => true, "u"⟩ 0 false = false ∧
    (EnterpriseOCRService.processDocument ⟨none, 0, "image/png", "f.png",
      fun k => if k = 0 then Except.ok "aaaaaaaaaaaa" else
        Except.error "OCR processing timeout", fun _ => true, "u"⟩
      { maxRetries := some 1 }).error ≠ none := by
  exact ⟨by decide, by decide, by decide, by decide, by decide, by decide⟩

/-- C9, amended: when the budget is exhausted and the final attempt did
extract usable text that was merely rejected as low quality, the
controller indeed resolves (never throws) with `success = false`, a
populated error and the final attempt's parsed record — its `rawText` is
the full OCR text of that attempt.  But when the final attempt itself
errors or yields under-10-character text, the result is `createErrorResult`
with an empty record (see the counterexample), so "always the best partial
record" holds only in the low-quality exit. -/
theorem C9_exhausted_behavior (env : EnterpriseOCRService.Env) (m : ℕ) (t : String)
    (hinit : env.initError = none)
    (hvalid : EnterpriseOCRService.validateFile env = none)
    (hrej : ∀ j, j < m → EnterpriseOCRService.attemptAccepted env j false = false)
    (hok : env.attempts m = Except.ok t)
    (hlen : (t == "" || decide ((JS.jsTrimS t).length < 10)) = false)
    (hlast : EnterpriseOCRService.attemptAccepted env m true = false) :
    EnterpriseOCRService.processDocument env { maxRetries := some m } =
      EnterpriseOCRService.lowQualityResult env m t ∧
    (EnterpriseOCRService.processDocument env { maxRetries := some m }).success = false ∧
    (EnterpriseOCRService.processDocument env { maxRetries := some m }).data.rawText =
      some t ∧
    (EnterpriseOCRService.processDocument env { maxRetries := some m }).error ≠ none ∧
    (EnterpriseOCRService.processDocument env
      { maxRetries := some m }).performance.attemptsUsed = m + 1 := by
  have hmain : EnterpriseOCRService.processDocument env { maxRetries := some m } =
      EnterpriseOCRService.lowQualityResult env m t := by
    unfold EnterpriseOCRService.processDocument
    rw [hinit]
    dsimp only
    rw [hvalid]
    dsimp only
    exact EnterpriseOCRService.procLoop_exhausted_aux env m t hok hlen hlast (m + 1) 0
      (by omega) (Nat.zero_le m) (fun j hj1 hj2 => hrej j hj2)
  refine ⟨hmain, ?_, ?_, ?_, ?_⟩ <;> rw [hmain]
  · rfl
  · show (EnterpriseOCRService.lowQualityResult env m t).data.rawText = some t
    unfold EnterpriseOCRService.lowQualityResult EnterpriseOCRService.attemptParse
    dsimp only
    exact IntelligentParser.parseInvoiceData_rawText _ _ _ _ _ _
  · simp [EnterpriseOCRService.lowQualityResult]
  · rfl

set_option maxRecDepth 200000 in
theorem C9_exhausted_behavior_witness :
    (⟨none, 0, "image/png", "f.png", fun _ => Except.ok "bbbbbbbbbbbb", fun _ => true,
      "u"⟩ : EnterpriseOCRService.Env).initError = none ∧
    EnterpriseOCRService.validateFile ⟨none, 0, "image/png", "f.png",
      fun _ => Except.ok "bbbbbbbbbbbb", fun _ => true, "u"⟩ = none ∧
    (⟨none, 0, "image/png", "f.png", fun _ => Except.ok "bbbbbbbbbbbb", fun _ => true,
      "u"⟩ : EnterpriseOCRService.Env).attempts 0 = Except.ok "bbbbbbbbbbbb" ∧
    ("bbbbbbbbbbbb" == "" || decide ((JS.jsTrimS "bbbbbbbbbbbb").length < 10)) = false ∧
    EnterpriseOCRService.attemptAccepted ⟨none, 0, "image/png", "f.png",
      fun _ => Except.ok "bbbbbbbbbbbb", fun _ => true, "u"⟩ 0 true = false ∧
    EnterpriseOCRService.processDocument ⟨none, 0, "image/png", "f.png",
      fun _ => Except.ok "bbbbbbbbbbbb", fun _ => true, "u"⟩ { maxRetries := some 0 } =
      EnterpriseOCRService.lowQualityResult ⟨none, 0, "image/png", "f.png",
        fun _ => Except.ok "bbbbbbbbbbbb", fun _ => true, "u"⟩ 0 "bbbbbbbbbbbb" :=
  ⟨rfl, by decide, rfl, by decide, by decide,
    (C9_exhausted_behavior ⟨none, 0, "image/png", "f.png",
      fun _ => Except.ok "bbbbbbbbbbbb", fun _ => true, "u"⟩ 0 "bbbbbbbbbbbb" rfl
      (by decide) (fun j hj => absurd hj (Nat.not_lt_zero j)) rfl (by decide)
      (by decide)).1⟩
